import Mathlib

/-!
Verification development for the Alibaba-cloud inventory scripts
(`oss-inventory.py`, `alibaba-ram-inventory.py`, `alibaba-ecs-inventory.py`,
`update-alibaba-ecs-inventory.py`).

The Python code is shallowly embedded: Python strings are `List Char`
(ASCII subset; `str.strip`/`str.isdigit` are modelled over ASCII
whitespace/digits), Python numbers are `Nat`/`Int`/`ℚ` (floats are modelled
as exact rationals: every float arising in these scripts is produced by
division by powers of 2 or by `int/1000.0` on integers small enough to be
exactly representable), optional provider fields are `Option`, and a
fallible secondary lookup is an `Except Unit` value supplied by the
environment.  The `datetime` library is modelled over its supported
year range 1..9999 (tz-aware datetimes are represented by their epoch
value as a rational number); `fromisoformat` is modelled for the
canonical `YYYY-MM-DD[THH:MM:SS[+HH:MM]]` forms it accepts, other inputs
parse to `none` (which the scripts' bare `except` clauses turn into the
pass-through result).
-/

set_option maxRecDepth 4000

namespace Inventory

/-! ## Python string primitives -/

/-- ASCII whitespace, the characters `str.strip()` removes. -/
def isSpaceChar (c : Char) : Bool :=
  c = ' ' || c = '\t' || c = '\n' || c = '\x0d' || c = '\x0b' || c = '\x0c'

/-- Remove trailing characters satisfying `p` (Python `str.rstrip`). -/
def dropTrail (p : Char → Bool) (l : List Char) : List Char :=
  (l.reverse.dropWhile p).reverse

/-- Python `str.strip()`: drop leading and trailing whitespace. -/
def pyStrip (l : List Char) : List Char :=
  dropTrail isSpaceChar (l.dropWhile isSpaceChar)

/-- ASCII decimal digit test. -/
def isDigitChar (c : Char) : Bool :=
  '0' ≤ c && c ≤ '9'

/-- Python `str.isdigit()` (ASCII subset): nonempty and all digits. -/
def pyIsdigit (l : List Char) : Bool :=
  !l.isEmpty && l.all isDigitChar

/-- The character for a decimal digit value. -/
def digitChar (n : Nat) : Char :=
  Char.ofNat (48 + n)

/-- The decimal value of a digit character. -/
def digitVal (c : Char) : Nat :=
  c.toNat - 48

/-- Digits of `n`, most significant first; the fuel bounds the recursion
and any fuel `≥ n` is enough. -/
def natStrGo : Nat → Nat → List Char
  | 0, _ => []
  | fuel + 1, n => if n = 0 then [] else natStrGo fuel (n / 10) ++ [digitChar (n % 10)]

/-- Decimal rendering of a natural number (`str(n)` for `n ≥ 0`). -/
def natStr (n : Nat) : List Char :=
  if n = 0 then ['0'] else natStrGo n n

/-- Decimal rendering of an integer (`str(n)`). -/
def intStr (i : Int) : List Char :=
  if i < 0 then '-' :: natStr i.natAbs else natStr i.natAbs

/-- Value of a digit string (`int(s)` on an all-digit string). -/
def parseDecimal (l : List Char) : Nat :=
  l.foldl (fun a c => 10 * a + digitVal c) 0

/-- Two-character zero-padded decimal (for `%d %H %M %S` and two-decimal
fraction parts). -/
def pad2 (n : Nat) : List Char :=
  [digitChar (n / 10 % 10), digitChar (n % 10)]

/-- Four-character zero-padded decimal (calendar years). -/
def pad4 (n : Nat) : List Char :=
  [digitChar (n / 1000 % 10), digitChar (n / 100 % 10),
   digitChar (n / 10 % 10), digitChar (n % 10)]

/-! ## Two-decimal float formatting (`f-string` `:.2f` / `round(x, 2)`) -/

/-- Floor of a rational (kept executable by avoiding the `FloorRing`
instance). -/
def ratFloor (q : ℚ) : ℤ :=
  Int.fdiv q.num q.den

/-- Round a rational to the nearest integer, ties to even — the rounding
used by both `round()` and `format(x, '.2f')` on exact values. -/
def roundHalfEven (q : ℚ) : ℤ :=
  let f : ℤ := ratFloor q
  let r : ℚ := q - f
  if r < 1/2 then f
  else if 1/2 < r then f + 1
  else if f % 2 = 0 then f else f + 1

/-- Python `round(x, 2)` as an exact rational. -/
def round2 (q : ℚ) : ℚ :=
  (roundHalfEven (q * 100) : ℚ) / 100

/-- Python `f"{x:.2f}"`. -/
def fmt2 (q : ℚ) : List Char :=
  let c : ℤ := roundHalfEven (q * 100)
  let n : Nat := c.natAbs
  (if c < 0 then ['-'] else []) ++ natStr (n / 100) ++ '.' :: pad2 (n % 100)

/-! ## `format_bytes` (oss-inventory.py, lines 31–42) -/

/-- The unit loop of `format_bytes`: divide by 1024 until the value drops
below 1024 or the unit list is exhausted (then report PB). -/
def formatBytesGo (b : ℚ) : List (List Char) → List Char
  | [] => fmt2 b ++ (' ' :: ('P' :: ['B']))
  | u :: us => if b < 1024 then fmt2 b ++ ' ' :: u else formatBytesGo (b / 1024) us

/-- `format_bytes(b)` for a numeric argument `b` (the `except` branch for
non-numeric arguments also returns `"0 B"` and is not separately modelled). -/
def formatBytes (b : ℚ) : List Char :=
  if b ≤ 0 then "0 B".toList
  else formatBytesGo b ["B".toList, "KB".toList, "MB".toList, "GB".toList, "TB".toList]

/-! ## `ensure_https` (oss-inventory.py, lines 70–76) -/

/-- `ensure_https(endpoint)`; the argument is `Option` because the call
site passes `getattr(b, "extranet_endpoint", "")` and the function guards
with `(endpoint or "")`. -/
def ensureHttps (endpoint : Option (List Char)) : List Char :=
  let e := pyStrip (endpoint.getD [])
  if "https://".toList.isPrefixOf e then e
  else if "http://".toList.isPrefixOf e then "https://".toList ++ e.drop 7
  else "https://".toList ++ e

/-! ## Python values

The timestamp helpers receive provider fields that are `None`, integers or
strings; `PyVal` models exactly those. -/

inductive PyVal where
  | vnone
  | vint (i : ℤ)
  | vstr (s : List Char)
deriving DecidableEq

/-- Python truthiness for the values above (`if not ts: ...`). -/
def pyTruthy : PyVal → Bool
  | .vnone => false
  | .vint i => i != 0
  | .vstr s => !s.isEmpty

/-- Python `str(ts)`. -/
def pyStr : PyVal → List Char
  | .vnone => "None".toList
  | .vint i => intStr i
  | .vstr s => s

/-! ## Proleptic Gregorian calendar (the `datetime` library's calendar) -/

/-- Days of the month in the proleptic Gregorian calendar. -/
def daysInMonth (y m : Nat) : Nat :=
  if m = 2 then (if y % 4 = 0 && (y % 100 != 0 || y % 400 = 0) then 29 else 28)
  else if m = 4 || m = 6 || m = 9 || m = 11 then 30
  else 31

/-- Days since 1970-01-01 of a civil date (Gregorian). -/
def daysFromCivil (y : ℤ) (m d : Nat) : ℤ :=
  let yy : ℤ := if m ≤ 2 then y - 1 else y
  let era : ℤ := Int.fdiv yy 400
  let yoe : Nat := (yy - era * 400).toNat
  let mp : Nat := if 2 < m then m - 3 else m + 9
  let doy : Nat := (153 * mp + 2) / 5 + d - 1
  let doe : Nat := yoe * 365 + yoe / 4 - yoe / 100 + doy
  era * 146097 + (doe : ℤ) - 719468

/-- Civil date (year, month, day) of a count of days since 1970-01-01. -/
def civilFromDays (z : ℤ) : ℤ × Nat × Nat :=
  let z' := z + 719468
  let era : ℤ := Int.fdiv z' 146097
  let doe : Nat := (z' - era * 146097).toNat
  let yoe : Nat := (doe - doe / 1460 + doe / 36524 - doe / 146096) / 365
  let y : ℤ := (yoe : ℤ) + era * 400
  let doy : Nat := doe - (365 * yoe + yoe / 4 - yoe / 100)
  let mp : Nat := (5 * doy + 2) / 153
  let d : Nat := doy - (153 * mp + 2) / 5 + 1
  let m : Nat := if mp < 10 then mp + 3 else mp - 9
  (if m ≤ 2 then y + 1 else y, m, d)

/-- `strftime` month abbreviations (`%b`, C locale). -/
def monthAbbr : Nat → List Char
  | 1 => "Jan".toList
  | 2 => "Feb".toList
  | 3 => "Mar".toList
  | 4 => "Apr".toList
  | 5 => "May".toList
  | 6 => "Jun".toList
  | 7 => "Jul".toList
  | 8 => "Aug".toList
  | 9 => "Sep".toList
  | 10 => "Oct".toList
  | 11 => "Nov".toList
  | _ => "Dec".toList

/-- `dt.astimezone(LOCAL_TZ).strftime(DT_FMT)` for a tz-aware datetime
whose epoch value is `ms` milliseconds (datetimes are modelled at
millisecond resolution: the values the scripts build are either whole
seconds or `n/1000.0` of an integer `n`, both exact in milliseconds),
where `LOCAL_TZ = UTC+3` and `DT_FMT = "%d %b %Y %H:%M:%S"` (ram script,
lines 24–25); `%S` shows the whole second, so the shifted value is
floored to seconds. -/
def epochToDisplayMs (ms : ℤ) : List Char :=
  let tsec : ℤ := Int.fdiv (ms + 10800000) 1000
  let days : ℤ := Int.fdiv tsec 86400
  let sod : Nat := (tsec - 86400 * days).toNat
  let c := civilFromDays days
  pad2 c.2.2 ++ ' ' :: monthAbbr c.2.1 ++ ' ' :: intStr c.1 ++
    ' ' :: pad2 (sod / 3600) ++ ':' :: pad2 (sod % 3600 / 60) ++ ':' :: pad2 (sod % 60)

/-! ## ISO-8601 parsing (`datetime.fromisoformat`)

Modelled for the canonical `YYYY-MM-DD[THH:MM:SS[+HH:MM]]` forms (with
`' '` also accepted as separator); fractional seconds and other variants
are outside the modelled subset and map to `none` (the callers' bare
`except` clauses treat any parse failure identically). -/

structure IsoDT where
  y : Nat
  m : Nat
  d : Nat
  h : Nat
  mi : Nat
  s : Nat
  off : Option ℤ
deriving DecidableEq

/-- Read exactly two digit characters. -/
def readDigits2 : List Char → Option (Nat × List Char)
  | a :: b :: rest =>
    if isDigitChar a && isDigitChar b then some (10 * digitVal a + digitVal b, rest)
    else none
  | _ => none

/-- Read exactly four digit characters. -/
def readDigits4 : List Char → Option (Nat × List Char)
  | a :: b :: c :: d :: rest =>
    if isDigitChar a && isDigitChar b && isDigitChar c && isDigitChar d then
      some (1000 * digitVal a + 100 * digitVal b + 10 * digitVal c + digitVal d, rest)
    else none
  | _ => none

/-- Consume one expected character. -/
def expectChar (c : Char) : List Char → Option (List Char)
  | a :: rest => if a = c then some rest else none
  | _ => none

/-- The time-of-day and offset tail of an ISO string, after the date. -/
def readIsoTail (y m d : Nat) : List Char → Option IsoDT
  | [] => some ⟨y, m, d, 0, 0, 0, none⟩
  | sep :: r => do
    if sep = 'T' || sep = ' ' then
      let (hh, r1) ← readDigits2 r
      let r2 ← expectChar ':' r1
      let (mi, r3) ← readDigits2 r2
      let r4 ← expectChar ':' r3
      let (ss, r5) ← readDigits2 r4
      if hh ≤ 23 ∧ mi ≤ 59 ∧ ss ≤ 59 then
        match r5 with
        | [] => some ⟨y, m, d, hh, mi, ss, none⟩
        | sgn :: r6 =>
          if sgn = '+' || sgn = '-' then do
            let (oh, r7) ← readDigits2 r6
            let r8 ← expectChar ':' r7
            let (om, r9) ← readDigits2 r8
            if r9 = [] ∧ oh ≤ 23 ∧ om ≤ 59 then
              some ⟨y, m, d, hh, mi, ss,
                    some ((if sgn = '-' then -1 else 1) * (3600 * (oh : ℤ) + 60 * om))⟩
            else none
          else none
      else none
    else none

/-- `datetime.fromisoformat` over the modelled subset. -/
def parseIsoDT (l : List Char) : Option IsoDT := do
  let (y, r1) ← readDigits4 l
  let r2 ← expectChar '-' r1
  let (m, r3) ← readDigits2 r2
  let r4 ← expectChar '-' r3
  let (d, r5) ← readDigits2 r4
  if 1 ≤ y ∧ 1 ≤ m ∧ m ≤ 12 ∧ 1 ≤ d ∧ d ≤ daysInMonth y m then
    readIsoTail y m d r5
  else none

/-- The epoch value of a parsed tz-aware datetime (an absent offset has
already been replaced by UTC at the call site). -/
def isoEpoch (dt : IsoDT) : ℤ :=
  daysFromCivil dt.y dt.m dt.d * 86400 + dt.h * 3600 + dt.mi * 60 + dt.s - dt.off.getD 0

/-- The canonical UTC ISO-8601 rendering of a civil datetime, the input
form the specification's round-trip property quantifies over. -/
def canonIso (y m d h mi s : Nat) : List Char :=
  pad4 y ++ ('-' :: (pad2 m ++ ('-' :: (pad2 d ++ ('T' :: (pad2 h ++
    (':' :: (pad2 mi ++ (':' :: (pad2 s ++
      ('+' :: '0' :: '0' :: ':' :: '0' :: '0' :: [])))))))))))

/-! ## `parse_timestamp` (alibaba-ram-inventory.py, lines 42–54) -/

/-- Whether `dt.astimezone(timezone(timedelta(hours=3)))` succeeds for a
datetime of epoch value `ms` milliseconds: the shifted instant must lie
within the library's `0001-01-01 00:00:00 … 9999-12-31 23:59:59.999999`;
outside it an `OverflowError` is raised (caught by the callers' bare
`except`). -/
def astimezoneOkMs (ms : ℤ) : Prop :=
  -62135596800000 ≤ ms + 10800000 ∧ ms + 10800000 < 253402300800000

instance (ms : ℤ) : Decidable (astimezoneOkMs ms) := by
  unfold astimezoneOkMs; infer_instance

/-- The reassignment `if s.endswith("Z"): s = s[:-1] + "+00:00"`
(line 50); note the `except` clause returns this rewritten string. -/
def zFix (s : List Char) : List Char :=
  if s.getLast? = some 'Z' then s.dropLast ++ "+00:00".toList else s

/-- `parse_timestamp(ts)`.  Falsy input gives `"Never"`; an all-digit
string is an epoch (milliseconds when above `10^12`, else seconds); other
strings go through `fromisoformat` after rewriting a trailing `"Z"` to
`"+00:00"`, a missing offset meaning UTC; any failure returns the
(possibly rewritten) stripped string. -/
def parseTimestamp (ts : PyVal) : List Char :=
  if pyTruthy ts = false then "Never".toList
  else
    let s := pyStrip (pyStr ts)
    if pyIsdigit s then
      let n : Nat := parseDecimal s
      let ms : ℤ := if (10 ^ 12 : ℤ) < (n : ℤ) then (n : ℤ) else 1000 * (n : ℤ)
      if astimezoneOkMs ms then epochToDisplayMs ms else s
    else
      match parseIsoDT (zFix s) with
      | some dt =>
        if astimezoneOkMs (1000 * isoEpoch dt) then epochToDisplayMs (1000 * isoEpoch dt)
        else zFix s
      | none => zFix s

/-! ## `safe_date` (oss-inventory.py, lines 45–53) -/

/-- Single underscore-separated run of digits, Python's integer-literal
body (`int("1_0")` is legal, `int("1__0")`/`int("1_")` are not). -/
def intLitGo (acc : Nat) : List Char → Option Nat
  | [] => some acc
  | '_' :: c :: rest =>
    if isDigitChar c then intLitGo (10 * acc + digitVal c) rest else none
  | c :: rest =>
    if isDigitChar c then intLitGo (10 * acc + digitVal c) rest else none

/-- The digits of an unsigned integer literal. -/
def intLit : List Char → Option Nat
  | c :: rest => if isDigitChar c then intLitGo (digitVal c) rest else none
  | [] => none

/-- Python `int(s)` on a string: strip whitespace, optional sign, digits. -/
def strToIntOpt (l : List Char) : Option ℤ :=
  match pyStrip l with
  | '+' :: rest => (intLit rest).map (fun n => (n : ℤ))
  | '-' :: rest => (intLit rest).map (fun n => -(n : ℤ))
  | t => (intLit t).map (fun n => (n : ℤ))

/-- `datetime.fromtimestamp(n).strftime("%Y-%m-%d")`: naive machine-local
time, modelled as the fixed UTC+3 these scripts target. -/
def dateYmd (n : ℤ) : List Char :=
  let days : ℤ := Int.fdiv (n + 10800) 86400
  let c := civilFromDays days
  intStr c.1 ++ '-' :: pad2 c.2.1 ++ '-' :: pad2 c.2.2

/-- `safe_date(ts)`: falsy gives `"N/A"`; a string containing `"T"` is cut
at the first `"T"`; otherwise `int(ts)` is formatted as a date, and on any
failure `str(ts)[:10]` is returned. -/
def safeDate (ts : PyVal) : List Char :=
  if pyTruthy ts = false then "N/A".toList
  else match ts with
  | .vstr s =>
    if 'T' ∈ s then s.takeWhile (· ≠ 'T')
    else match strToIntOpt s with
      | some n => if astimezoneOkMs (1000 * n) then dateYmd n else s.take 10
      | none => s.take 10
  | .vint i => if astimezoneOkMs (1000 * i) then dateYmd i else (intStr i).take 10
  | .vnone => "N/A".toList

/-! ## Shared row-normalizer helpers -/

/-- `_s(val)` (update-alibaba-ecs-inventory.py, lines 29–30):
`str(val).strip()` for present values, `""` for `None`. -/
def pyS (val : Option (List Char)) : List Char :=
  match val with
  | some v => pyStrip v
  | none => []

/-- Join a list of strings with a separator (`sep.join(parts)`). -/
def joinWith (sep : List Char) : List (List Char) → List Char
  | [] => []
  | [x] => x
  | x :: xs => x ++ sep ++ joinWith sep xs

/-- First-seen deduplication (the `seen` set / `dict.fromkeys` idiom). -/
def dedupFirstGo (seen : List (List Char)) : List (List Char) → List (List Char)
  | [] => []
  | x :: xs => if x ∈ seen then dedupFirstGo seen xs else x :: dedupFirstGo (x :: seen) xs

/-- Deduplicate keeping the first occurrence of each element. -/
def dedupFirst (l : List (List Char)) : List (List Char) :=
  dedupFirstGo [] l

/-- `_safe_join(vals)` (alibaba-ecs-inventory.py, lines 78–85 and
update-alibaba-ecs-inventory.py, lines 32–34): stringify, drop falsy
entries, deduplicate keeping first occurrences, join with `"; "`. -/
def safeJoin (vals : List PyVal) : List Char :=
  joinWith "; ".toList (dedupFirst ((vals.filter (pyTruthy ·)).map pyStr))

/-- `_mb_to_gb(mb)` (alibaba-ecs-inventory.py, lines 88–94): absent or
blank gives `""`, otherwise `round(mb/1024, 2)` rendered by pandas/f-string
(the numeric value is what matters downstream; it is kept as a rational). -/
def mbToGb (mb : Option ℚ) : Option ℚ :=
  match mb with
  | none => none
  | some v => some (round2 (v / 1024))

/-- `html.escape(s)` with the default `quote=True`. -/
def htmlEscape (s : List Char) : List Char :=
  s.flatMap fun c =>
    if c = '&' then "&amp;".toList
    else if c = '<' then "&lt;".toList
    else if c = '>' then "&gt;".toList
    else if c = '"' then "&quot;".toList
    else if c = '\x27' then "&#x27;".toList
    else [c]

/-! ## Resource Client Adapter: pagination loops

`list_disks_for_instance` / `snapshot_summary_for_instance` /
`DescribeInstances` share one shape (alibaba-ecs-inventory.py, lines
253–272): request page 1, 2, … and stop as soon as
`page * page_size >= total_count`.  The provider is abstracted as a
function from the page number to that page's items plus the reported
`total_count`.  The loop is given fuel (the Python loop can diverge for an
adversarial provider; every claim instantiates enough fuel). -/

def pagedLoop (fetch : Nat → List α × Nat) (pageSize : Nat) : Nat → Nat → List α × Nat
  | 0, _ => ([], 0)
  | fuel + 1, page =>
    let (items, total) := fetch page
    if total ≤ page * pageSize then (items, 1)
    else
      let rest := pagedLoop fetch pageSize fuel (page + 1)
      (items ++ rest.1, rest.2 + 1)

/-- A provider holding `items`, served in slices of `pageSize` with
`total_count = items.length` (pages are 1-based as in the scripts). -/
def mockFetch (items : List α) (pageSize : Nat) (page : Nat) : List α × Nat :=
  ((items.drop ((page - 1) * pageSize)).take pageSize, items.length)

/-- The marker loop of the RAM script (lines 138–144 / 155–207): fetch
with the current marker, accumulate, stop when `IsTruncated` is falsy. -/
def markerLoop (fetch : Option (List Char) → List α × Option (List Char) × Bool) :
    Nat → Option (List Char) → List α × Nat
  | 0, _ => ([], 0)
  | fuel + 1, marker =>
    let (items, next, truncated) := fetch marker
    if truncated then
      let rest := markerLoop fetch fuel next
      (items ++ rest.1, rest.2 + 1)
    else (items, 1)

/-! ## OSS inventory pipeline (oss-inventory.py) -/

/-- Truthiness of an optional string field (`if not tb: ...`). -/
def truthyOpt (o : Option (List Char)) : Bool :=
  match o with
  | some s => !s.isEmpty
  | none => false

/-- Python `str.replace(pat, "")`: delete every (left-to-right,
non-overlapping) occurrence of `pat`. -/
def removeAllSub (pat l : List Char) : List Char :=
  match pat, l with
  | [], l => l
  | _ :: _, [] => []
  | p :: ps, c :: rest =>
    if (p :: ps).isPrefixOf (c :: rest) then removeAllSub (p :: ps) (rest.drop ps.length)
    else c :: removeAllSub (p :: ps) rest
termination_by l.length
decreasing_by
  · simp only [List.length_cons]
    have := List.length_drop ps.length rest
    omega
  · simp only [List.length_cons]
    omega

/-- Fields of `get_bucket_info()` used by the script; `getattr` defaults
make each one optional. -/
structure OssInfo where
  storageClass : Option (List Char)
  aclGrant : Option (List Char)
  redundancy : Option (List Char)
  creationDate : PyVal

/-- Fields of `get_bucket_stat()` used by the script. -/
structure OssStat where
  storageBytes : Nat
  objectCount : Nat

/-- The logging configuration object: top-level `target_bucket` /
`target_prefix` attributes plus the optional nested `cfg.logging`
fallback (`hasattr(cfg, "logging")`). -/
structure OssLogging where
  tb : Option (List Char)
  tp : Option (List Char)
  nested : Option (Option (List Char) × Option (List Char))

/-- `get_access_logging_status(bucket_client)` (lines 82–100): any failure
of `get_bucket_logging()` gives `("No", "N/A")`; a truthy target bucket
gives `"Yes"` and `f"{tb}/{tp or ''}".rstrip("/")`. -/
def getAccessLoggingStatus (c : Except Unit OssLogging) : List Char × List Char :=
  match c with
  | .error _ => ("No".toList, "N/A".toList)
  | .ok cfg =>
    let first := (cfg.tb, cfg.tp)
    let eff :=
      if !truthyOpt cfg.tb then
        match cfg.nested with
        | some nestedPair => nestedPair
        | none => first
      else first
    if truthyOpt eff.1 then
      ("Yes".toList,
       dropTrail (· = '/')
         (eff.1.getD [] ++ '/' :: (if truthyOpt eff.2 then eff.2.getD [] else [])))
    else ("No".toList, "N/A".toList)

/-- `http_public_probe` (lines 103–111): a successful `HEAD` gives
`"Reachable (<status>)"`, any exception `"Not Reachable"`. -/
def httpProbeResult (probe : Except Unit Nat) : List Char :=
  match probe with
  | .ok st => "Reachable (".toList ++ natStr st ++ [')']
  | .error _ => "Not Reachable".toList

/-- The environment one loop iteration of `main` sees for one bucket:
its listing attributes plus the outcome of each secondary lookup. -/
structure OssBucketEnv where
  name : List Char
  location : List Char
  extranetEndpoint : Option (List Char)
  info : Except Unit OssInfo
  stat : Except Unit OssStat
  versioning : Except Unit (Option (List Char))
  accel : Except Unit Bool
  logging : Except Unit OssLogging
  probe : Except Unit Nat

/-- One normalized OSS inventory record (the dict built at lines 167–184).
`storageBytes`/`objects` are the raw numbers; `capacity` is the rendered
`Capacity` column. -/
structure OssRow where
  name : List Char
  region : List Char
  storageClass : List Char
  storageBytes : Nat
  capacity : List Char
  objects : Nat
  acl : List Char
  redundancy : List Char
  versioning : List Char
  accel : List Char
  createdAt : List Char
  clientTls : List Char
  accessLogging : List Char
  logTarget : List Char
  probe : List Char

/-- The body of the per-bucket loop (lines 142–188).  `get_bucket_info` /
`get_bucket_stat` run inside the outer `try` whose `except` clause is
`continue`, so a failure of either drops the bucket (`none`); the
versioning / acceleration / logging / probe lookups are caught locally
and default. -/
def processBucket (skipProbe : Bool) (b : OssBucketEnv) : Option OssRow :=
  match b.info, b.stat with
  | .ok info, .ok stat =>
    let logPair := getAccessLoggingStatus b.logging
    some
      { name := b.name
        region := removeAllSub "oss-".toList b.location
        storageClass := info.storageClass.getD "Standard".toList
        storageBytes := stat.storageBytes
        capacity := formatBytes (stat.storageBytes : ℚ)
        objects := stat.objectCount
        acl := info.aclGrant.getD "private".toList
        redundancy := info.redundancy.getD "LRS".toList
        versioning :=
          match b.versioning with
          | .ok v => if truthyOpt v then v.getD [] else "Off".toList
          | .error _ => "Off".toList
        accel :=
          match b.accel with
          | .ok en => if en then "Enabled".toList else "Disabled".toList
          | .error _ => "Disabled".toList
        createdAt := safeDate info.creationDate
        clientTls := "Yes (HTTPS)".toList
        accessLogging := logPair.1
        logTarget := logPair.2
        probe := if skipProbe then "Skipped".toList else httpProbeResult b.probe }
  | _, _ => none

/-- The whole fetch loop of `main`: emitted rows plus the running
`total_bytes` / `total_objects` accumulators, which are incremented (from
`stat`) exactly in the iterations that also append a row. -/
def ossMain (skipProbe : Bool) : List OssBucketEnv → List OssRow × Nat × Nat
  | [] => ([], 0, 0)
  | b :: bs =>
    let rest := ossMain skipProbe bs
    match processBucket skipProbe b with
    | some row => (row :: rest.1, row.storageBytes + rest.2.1, row.objects + rest.2.2)
    | none => rest

/-- The 14 column names of the OSS report, in dict-insertion order; both
the CSV (`DataFrame.to_csv`) and the HTML table use this list. -/
def ossHeaders : List (List Char) :=
  ["Bucket Name".toList, "Region".toList, "Storage Class".toList, "Capacity".toList,
   "Objects".toList, "ACL".toList, "Redundancy".toList, "Versioning".toList,
   "Acceleration".toList, "Created At".toList, "Client TLS".toList,
   "Access Logging".toList, "Log Target".toList, "HTTP Public Probe".toList]

/-- One CSV data row of the OSS report. -/
def ossCsvRow (r : OssRow) : List PyVal :=
  [.vstr r.name, .vstr r.region, .vstr r.storageClass, .vstr r.capacity,
   .vint r.objects, .vstr r.acl, .vstr r.redundancy, .vstr r.versioning,
   .vstr r.accel, .vstr r.createdAt, .vstr r.clientTls, .vstr r.accessLogging,
   .vstr r.logTarget, .vstr r.probe]

/-- `_badge(val, type)` (lines 56–67). -/
def ossBadge (v : List Char) (isAcl : Bool) : List Char :=
  let val := (if v.isEmpty then "Unknown".toList else v).map Char.toLower
  let bg :=
    if isAcl then
      if val = "private".toList then "#16a34a".toList
      else if val = "public-read".toList then "#ea580c".toList
      else if val = "public-read-write".toList then "#dc2626".toList
      else "#64748b".toList
    else
      if val = "zrs".toList then "#2563eb".toList
      else if val = "lrs".toList then "#475569".toList
      else "#64748b".toList
  "<span class='badge' style='background:".toList ++ bg ++
    ";color:white;padding:3px 8px;border-radius:4px;font-weight:bold;font-size:10px;'>".toList ++
    val.map Char.toUpper ++ "</span>".toList

/-- One HTML table row's cells of the OSS report (lines 197–207): the ACL
and Redundancy cells hold badges, every other cell the rendered value. -/
def ossHtmlRow (r : OssRow) : List (List Char) :=
  [r.name, r.region, r.storageClass, r.capacity, natStr r.objects,
   ossBadge r.acl true, ossBadge r.redundancy false, r.versioning, r.accel,
   r.createdAt, r.clientTls, r.accessLogging, r.logTarget, r.probe]

/-! ## RAM users pipeline (alibaba-ram-inventory.py)

Provider-supplied name lists (`PolicyName`, `GroupName`) are modelled as
strings (a `None` name would make `", ".join` raise; the provider returns
strings).  CSV quoting is not modelled; a CSV field is the text the
`csv` module writes for the value, which is `""` for `None`. -/

/-- Python string `<` (lexicographic by code point). -/
def lexLtStr : List Char → List Char → Bool
  | [], [] => false
  | [], _ :: _ => true
  | _ :: _, [] => false
  | x :: xs, y :: ys =>
    if x.toNat < y.toNat then true
    else if y.toNat < x.toNat then false
    else lexLtStr xs ys

/-- One access-key record: its `Status`, its `CreateDate`, and the outcome
of the per-key `get_access_key_last_used` call (line 191, caught by the
inner `try`). -/
structure AkRec where
  status : Option (List Char)
  createDate : List Char
  lastUsed : Except Unit PyVal

/-- The IMS-side user metadata (`ims_map.get(u_id, {})`); a user missing
from the map is the record with every field absent. -/
structure ImsUser where
  status : Option (List Char)
  upn : Option (List Char)
  lastLogin : PyVal

/-- The environment one loop iteration of `main` sees for one RAM user. -/
structure RamUserEnv where
  userName : PyVal
  displayName : PyVal
  createDate : PyVal
  imsU : ImsUser
  policies : Except Unit (List (List Char))
  groups : Except Unit (List (List Char))
  accessKeys : Except Unit (List AkRec)

/-- One normalized RAM report row (the 12-element list of lines 199–203).
`userName`/`displayName` stay raw `PyVal`s: the script appends
`u.get(...)` results without normalization. -/
structure RamRow where
  profile : List Char
  userName : PyVal
  displayName : PyVal
  status : List Char
  creation : List Char
  perms : List Char
  groups : List Char
  mfa : List Char
  akStatus : List Char
  akGen : List Char
  akLast : List Char
  lastLogin : List Char

/-- `sorted(aks, key=CreateDate, reverse=True)[0]`: the first-listed key
with the (lexicographically) greatest `CreateDate` (`sorted` is stable). -/
def latestAk (a : AkRec) (rest : List AkRec) : AkRec :=
  rest.foldl (fun best x => if lexLtStr best.createDate x.createDate then x else best) a

/-- The last-used loop (lines 189–197): per-key failures are skipped, the
first key whose parsed `LastUsedDate` is not `"Never"` wins. -/
def findLastUsed : List AkRec → List Char
  | [] => "Never".toList
  | ak :: rest =>
    match ak.lastUsed with
    | .error _ => findLastUsed rest
    | .ok v =>
      let d := parseTimestamp v
      if d ≠ "Never".toList then d else findLastUsed rest

/-- The access-key block (lines 178–197): defaults
`("None", "N/A", "Never")`; when the IMS user has a principal name the
key listing is fetched (uncaught — a failure propagates) and the three
fields are derived from it. -/
def akTriple (imsu : ImsUser) (accessKeys : Except Unit (List AkRec)) :
    Except Unit (List Char × List Char × List Char) :=
  if truthyOpt imsu.upn then do
    let aks ← accessKeys
    match aks with
    | [] => .ok ("None".toList, "N/A".toList, "Never".toList)
    | a0 :: rest =>
      let st := if aks.any (fun a => a.status = some "Active".toList) then "Active".toList
                else "Inactive".toList
      let latest := latestAk a0 rest
      .ok (st, parseTimestamp (.vstr latest.createDate), findLastUsed aks)
  else .ok ("None".toList, "N/A".toList, "Never".toList)

/-- The body of the per-user loop (lines 158–204).  The policy lookup is
caught (`except: pass`, line 170) and defaults to the empty list; the
group lookup (line 174) and the access-key listing (line 181) are not
caught, so their failure aborts the whole run (`Except.error`). -/
def processUser (profile : List Char) (env : RamUserEnv) : Except Unit RamRow := do
  let perms := match env.policies with | .ok ps => ps | .error _ => []
  let permsStr := if perms.isEmpty then "None (Group Only)".toList
                  else joinWith ", ".toList perms
  let gs ← env.groups
  let gj := joinWith ", ".toList gs
  let groupsStr := if gj.isEmpty then "None".toList else gj
  let ak ← akTriple env.imsU env.accessKeys
  pure
    { profile := profile
      userName := env.userName
      displayName := env.displayName
      status := (env.imsU.status.getD "Active".toList)
      creation := parseTimestamp env.createDate
      perms := permsStr
      groups := groupsStr
      mfa := if pyTruthy env.imsU.lastLogin then "Yes".toList else "No".toList
      akStatus := ak.1
      akGen := ak.2.1
      akLast := ak.2.2
      lastLogin := parseTimestamp env.imsU.lastLogin }

/-- The whole user loop: records accumulate in order and the first
uncaught lookup failure aborts, losing every record. -/
def runRamUsers (profile : List Char) : List RamUserEnv → Except Unit (List RamRow)
  | [] => .ok []
  | e :: es => do
    let r ← processUser profile e
    let rest ← runRamUsers profile es
    .ok (r :: rest)

/-- The 12 fixed RAM report headers (lines 147–151). -/
def ramHeaders : List (List Char) :=
  ["Profile".toList, "User Name".toList, "Display Name".toList, "Status".toList,
   "User Creation Date".toList, "Permissions (Direct)".toList, "Groups".toList,
   "MFA".toList, "AccessKey Pair Status".toList,
   "AccessKey Pair Generated Date".toList, "AccessKey Pair Last Used".toList,
   "Last User Login".toList]

/-- The 12 cells of one RAM data row, in output order. -/
def ramRowCells (r : RamRow) : List PyVal :=
  [.vstr r.profile, r.userName, r.displayName, .vstr r.status, .vstr r.creation,
   .vstr r.perms, .vstr r.groups, .vstr r.mfa, .vstr r.akStatus, .vstr r.akGen,
   .vstr r.akLast, .vstr r.lastLogin]

/-- The text the `csv` module writes for one value: `""` for `None`,
the string itself otherwise (quoting not modelled). -/
def csvField (v : PyVal) : List Char :=
  match v with
  | .vnone => []
  | .vint i => intStr i
  | .vstr s => s

/-- The line list passed to `csv.writer(f).writerows([headers] + data_rows)`. -/
def ramCsvLines (rows : List RamRow) : List (List PyVal) :=
  ramHeaders.map .vstr :: rows.map ramRowCells

/-- One HTML cell of `build_html` (line 65): `html.escape(str(c))` — a
`None` cell renders as the literal text `"None"`. -/
def ramHtmlCell (v : PyVal) : List Char :=
  htmlEscape (pyStr v)

/-- One `<tr>` of the report body (lines 63–66). -/
def ramHtmlRowStr (r : RamRow) : List Char :=
  "<tr>".toList ++
    ((ramRowCells r).flatMap fun c => "<td>".toList ++ ramHtmlCell c ++ "</td>".toList) ++
    "</tr>".toList

/-- The `<tbody>` rows of `build_html`, one per data row. -/
def ramHtmlBodyRows (rows : List RamRow) : List (List Char) :=
  rows.map ramHtmlRowStr

/-! ## ECS inventory pipeline (alibaba-ecs-inventory.py) -/

/-- A heterogeneous display cell (these rows mix strings, ints and the
rounded memory float). -/
inductive Cell where
  | cnone
  | cstr (s : List Char)
  | cint (i : ℤ)
  | crat (q : ℚ)
deriving DecidableEq

/-- Decimal rendering of the (two-decimal) rationals these reports carry:
`str(round(x, 2))` — trailing zeros dropped down to one decimal, as the
float repr prints them. -/
def ratStr (q : ℚ) : List Char :=
  let sgn : List Char := if q < 0 then ['-'] else []
  let c : Nat := (ratFloor (|q| * 100)).toNat
  let ip := c / 100
  let f2 := c % 100
  sgn ++ natStr ip ++ '.' ::
    (if f2 = 0 then ['0']
     else if f2 % 10 = 0 then [digitChar (f2 / 10)]
     else [digitChar (f2 / 10), digitChar (f2 % 10)])

/-- `str(...)` of a cell value. -/
def cellStr : Cell → List Char
  | .cnone => "None".toList
  | .cstr s => s
  | .cint i => intStr i
  | .crat q => ratStr q

/-- `REGION_ID` (line 21). -/
def ecsRegionId : List Char := "me-central-1".toList

/-- `PROFILE_NAME` (line 30). -/
def ecsProfileName : List Char := "masdr-env".toList

/-- `STATE_COLOR` lookup with its default (lines 35–42, 97–99). -/
def stateColor (s : List Char) : List Char :=
  if s = "Running".toList then "#2e7d32".toList
  else if s = "Stopped".toList then "#c62828".toList
  else if s = "Starting".toList then "#1565c0".toList
  else if s = "Stopping".toList then "#ef6c00".toList
  else if s = "Pending".toList then "#1565c0".toList
  else if s = "Deleted".toList then "#616161".toList
  else "#424242".toList

/-- `_badge(state)` (lines 97–100). -/
def ecsBadge (state : List Char) : List Char :=
  "<span style='background:".toList ++ stateColor state ++
    ";color:#fff;padding:2px 8px;border-radius:999px;font-size:12px;font-weight:700'>".toList ++
    htmlEscape state ++ "</span>".toList

/-- `_ecs_link(instance_id)` (lines 103–107). -/
def ecsLink (iid : List Char) : List Char :=
  let e := htmlEscape iid
  "<a href='https://ecs.console.aliyun.com/#/server/".toList ++ ecsRegionId ++
    '/' :: e ++ "/detail' data-value='".toList ++ e ++
    "' target='_blank' rel='noopener noreferrer' style='font-weight:700'>".toList ++
    e ++ "</a>".toList

/-- What one call of `get_os_image_best_effort` sees: the primary listing's
(first truthy) OS name and image id, the instance id, and the attribute
lookup's outcome.  The typed-accessor chain and the `_pick_from_map`
alias walk over the response are collapsed into the extracted optional
values, which are provider data. -/
structure AttrCase where
  osPrimary : Option (List Char)
  imgPrimary : Option (List Char)
  iid : List Char
  attr : Except Unit (Option (List Char) × Option (List Char))

/-- `get_os_image_best_effort` (lines 181–250) as a state transformer on
the module flag `_printed_attr_error`: returns the (os name, image id)
pair, the new flag, and how many warnings this call printed (0 or 1).
`DEBUG_PRINT_ATTR_ERRORS` is `True` (line 32). -/
def getOsImageBE (printed : Bool) (c : AttrCase) :
    (List Char × List Char) × Bool × Nat :=
  let osName := c.osPrimary.getD []
  let imageId := c.imgPrimary.getD []
  if osName ≠ [] ∧ imageId ≠ [] then ((osName, imageId), printed, 0)
  else if c.iid = [] then ((osName, imageId), printed, 0)
  else
    match c.attr with
    | .ok attrPair =>
      let os2 := attrPair.1.getD []
      let img2 := attrPair.2.getD []
      ((if osName ≠ [] then osName else os2,
        if imageId ≠ [] then imageId else img2), printed, 0)
    | .error _ => ((osName, imageId), true, if printed then 0 else 1)

/-- The attribute lookups of a whole run, threading the module flag
(initially `False`, line 33) and counting printed warnings. -/
def ecsAttrFold (printed : Bool) : List AttrCase → List (List Char × List Char) × Bool × Nat
  | [] => ([], printed, 0)
  | c :: cs =>
    let r := getOsImageBE printed c
    let rest := ecsAttrFold r.2.1 cs
    (r.1 :: rest.1, rest.2.1, r.2.2 + rest.2.2)

/-- A run starts with the flag clear. -/
def ecsAttrRun (cs : List AttrCase) : List (List Char × List Char) × Bool × Nat :=
  ecsAttrFold false cs

/-- One disk record as used by `disk_summary` (lines 275–296). -/
structure DiskRec where
  size : Option ℤ
  dtype : Option (List Char)
  category : Option (List Char)
  diskId : Option (List Char)

/-- `disk_summary(disks)`: total/system/data GB, the sorted deduplicated
category set joined with `", "`, and the disk-id list. -/
def diskSummary (disks : List DiskRec) : ℤ × ℤ × ℤ × List Char × List PyVal :=
  let sizes := disks.map fun d => d.size.getD 0
  let total := sizes.sum
  let system := (disks.filter fun d =>
    (d.dtype.getD []).map Char.toLower = "system".toList).foldl
      (fun a d => a + d.size.getD 0) 0
  let data := (disks.filter fun d =>
    (d.dtype.getD []).map Char.toLower = "data".toList).foldl
      (fun a d => a + d.size.getD 0) 0
  let cats := dedupFirst ((disks.map fun d => d.category.getD []).filter (· ≠ []))
  let catStr := joinWith ", ".toList (cats.mergeSort fun a b => !lexLtStr b a)
  let ids := (disks.map fun d => d.diskId.getD []).filter (· ≠ [])
  (total, system, data, catStr, ids.map .vstr)

/-- The disk block of the main loop (lines 547–553): a failure of the
(paginated) disk listing yields the placeholder `(0, 0, 0, "", [])`. -/
def ecsDiskBlock (diskRes : Except Unit (List DiskRec)) :
    ℤ × ℤ × ℤ × List Char × List PyVal :=
  match diskRes with
  | .ok disks => diskSummary disks
  | .error _ => (0, 0, 0, [], [])

/-- `snapshot_summary_for_instance`'s aggregation (lines 299–327) over the
fetched snapshots: the count as a string and the lexicographic maximum of
the truthy creation times. -/
def snapSummary (snaps : List (Option (List Char))) : List Char × List Char :=
  let latest := snaps.foldl
    (fun best ct =>
      match ct with
      | some t => if t ≠ [] ∧ (best = [] ∨ lexLtStr best t) then t else best
      | none => best) []
  (natStr snaps.length, latest)

/-- The snapshot block of the main loop (lines 556–562): failure yields
`("", "")`. -/
def ecsSnapBlock (snapRes : Except Unit (List (Option (List Char)))) :
    List Char × List Char :=
  match snapRes with
  | .ok snaps => snapSummary snaps
  | .error _ => ([], [])

/-- The per-instance values computed by the main loop (lines 520–562),
just before the two rows are appended. -/
structure EcsVals where
  name : List Char
  iid : List Char
  itype : List Char
  state : List Char
  az : List Char
  ctime : List Char
  vcpu : Cell
  memGb : Cell
  osName : List Char
  imageId : List Char
  enis : List PyVal
  pubIps : List PyVal
  priIps : List PyVal
  sgs : List PyVal
  dTotal : ℤ
  dSys : ℤ
  dData : ℤ
  dCat : List Char
  dIds : List PyVal
  snapCount : List Char
  snapLatest : List Char
  vpcId : List Char
  vswId : List Char
  keyp : List Char

/-- The 26 fixed `HEADERS` (lines 44–71). -/
def ecsHeaders : List (List Char) :=
  ["Profile".toList, "Name".toList, "InstanceId".toList, "Region".toList,
   "InstanceType".toList, "vCPU".toList, "Memory(GB)".toList, "OS Name".toList,
   "ImageId".toList, "ENI IDs".toList, "Public IPs".toList, "Private IPs".toList,
   "Security Groups".toList, "DiskTotal(GB)".toList, "SystemDisk(GB)".toList,
   "DataDisks(GB)".toList, "DiskCategories".toList, "Disk IDs".toList,
   "SnapshotCount".toList, "LatestSnapshotTime".toList, "State".toList,
   "AZ".toList, "VPC".toList, "VSwitch".toList, "Key Pair".toList,
   "Creation Time".toList]

/-- The CSV row appended for one instance (lines 565–574). -/
def ecsCsvRow (v : EcsVals) : List Cell :=
  [.cstr ecsProfileName, .cstr v.name, .cstr v.iid, .cstr ecsRegionId,
   .cstr v.itype, v.vcpu, v.memGb, .cstr v.osName, .cstr v.imageId,
   .cstr (safeJoin v.enis), .cstr (safeJoin v.pubIps), .cstr (safeJoin v.priIps),
   .cstr (safeJoin v.sgs), .cint v.dTotal, .cint v.dSys, .cint v.dData,
   .cstr v.dCat, .cstr (safeJoin v.dIds), .cstr v.snapCount, .cstr v.snapLatest,
   .cstr v.state, .cstr v.az, .cstr v.vpcId, .cstr v.vswId, .cstr v.keyp,
   .cstr v.ctime]

/-- The HTML row appended for one instance (lines 577–604): everything
escaped, the instance id a link, the state a badge. -/
def ecsHtmlRow (v : EcsVals) : List (List Char) :=
  [htmlEscape ecsProfileName, htmlEscape v.name, ecsLink v.iid,
   htmlEscape ecsRegionId, htmlEscape (cellStr (.cstr v.itype)),
   htmlEscape (cellStr v.vcpu), htmlEscape (cellStr v.memGb),
   htmlEscape v.osName, htmlEscape v.imageId, htmlEscape (safeJoin v.enis),
   htmlEscape (safeJoin v.pubIps), htmlEscape (safeJoin v.priIps),
   htmlEscape (safeJoin v.sgs), htmlEscape (cellStr (.cint v.dTotal)),
   htmlEscape (cellStr (.cint v.dSys)), htmlEscape (cellStr (.cint v.dData)),
   htmlEscape v.dCat, htmlEscape (safeJoin v.dIds), htmlEscape v.snapCount,
   htmlEscape v.snapLatest, ecsBadge v.state, htmlEscape v.az,
   htmlEscape v.vpcId, htmlEscape v.vswId, htmlEscape v.keyp,
   htmlEscape v.ctime]

/-! ## Updated ECS inventory pipeline (update-alibaba-ecs-inventory.py) -/

/-- One disk record of the updated script (lines 144–150): ids and
categories are appended raw (possibly `None`), sizes via `int(d.size or 0)`. -/
structure UpdDiskRec where
  size : Option ℤ
  diskId : PyVal
  category : PyVal
  dtype : Option (List Char)

/-- One snapshot record (lines 153–158). -/
structure UpdSnapRec where
  creationTime : Option (List Char)

/-- What one loop iteration of the updated script's `main` sees for one
instance. -/
structure UpdInsEnv where
  instanceId : Option (List Char)
  instanceName : Option (List Char)
  instanceType : Option (List Char)
  cpu : Option ℤ
  memoryMb : Option ℚ
  osnameEn : Option (List Char)
  status : Option (List Char)
  zoneId : Option (List Char)
  vpcId : Option (List Char)
  creationTime : Option (List Char)
  diskRes : Except Unit (List UpdDiskRec)
  snapRes : Except Unit (List UpdSnapRec)

/-- The per-instance values of the updated script (lines 131–171). -/
structure UpdVals where
  insName : List Char
  iid : List Char
  itype : List Char
  vcpu : ℤ
  mem : ℚ
  osName : List Char
  dTot : ℤ
  dSys : ℤ
  dDat : ℤ
  cats : List PyVal
  dIds : List PyVal
  snapCount : ℕ
  latestSnap : List Char
  status : Option (List Char)
  zone : List Char
  vpc : List Char
  created : List Char

/-- The body of the per-instance loop (lines 131–171): one `try` wraps the
disk and snapshot lookups (`except: pass`, line 159), so a disk failure
leaves all six enrichment fields at their placeholders and a snapshot
failure keeps the disk values already computed. -/
def updPerInstance (e : UpdInsEnv) : UpdVals :=
  let iid := pyS e.instanceId
  let nm := pyS e.instanceName
  let base : UpdVals :=
    { insName := if nm.isEmpty then "Unnamed".toList else nm
      iid := iid
      itype := pyS e.instanceType
      vcpu := e.cpu.getD 0
      mem := round2 (e.memoryMb.getD 0 / 1024)
      osName := pyS e.osnameEn
      dTot := 0, dSys := 0, dDat := 0, cats := [], dIds := []
      snapCount := 0, latestSnap := []
      status := e.status
      zone := pyS e.zoneId
      vpc := pyS e.vpcId
      created := pyS e.creationTime }
  match e.diskRes with
  | .error _ => base
  | .ok disks =>
    let sys := disks.filter fun d => (pyS d.dtype).map Char.toLower = "system".toList
    let dat := disks.filter fun d => (pyS d.dtype).map Char.toLower ≠ "system".toList
    let withDisks :=
      { base with
        dTot := (disks.map fun d => d.size.getD 0).sum
        dSys := (sys.map fun d => d.size.getD 0).sum
        dDat := (dat.map fun d => d.size.getD 0).sum
        cats := disks.map (·.category)
        dIds := disks.map (·.diskId) }
    match e.snapRes with
    | .error _ => withDisks
    | .ok snaps =>
      let times := (snaps.map (·.creationTime)).filterMap fun t =>
        match t with
        | some s => if s.isEmpty then none else some s
        | none => none
      { withDisks with
        snapCount := snaps.length
        latestSnap :=
          match times with
          | [] => []
          | t :: ts => ts.foldl (fun best x => if lexLtStr best x then x else best) t }

/-- The whole instance loop with its `sum_vcpu` / `sum_mem` / `sum_disk`
accumulators (lines 122, 161). -/
def updMain : List UpdInsEnv → List UpdVals × ℤ × ℚ × ℤ
  | [] => ([], 0, 0, 0)
  | e :: es =>
    let v := updPerInstance e
    let rest := updMain es
    (v :: rest.1, v.vcpu + rest.2.1, v.mem + rest.2.2.1, v.dTot + rest.2.2.2)

/-- The `summary` dict (line 176): count, vCPU, `round(sum_mem, 2)`,
disk total. -/
def updSummary (envs : List UpdInsEnv) : ℕ × ℤ × ℚ × ℤ :=
  let r := updMain envs
  (r.1.length, r.2.1, round2 r.2.2.1, r.2.2.2)

/-- The 16 fixed headers of the updated report (line 181). -/
def updHeaders : List (List Char) :=
  ["Instance Name".toList, "InstanceId".toList, "Type".toList, "vCPU".toList,
   "RAM(GB)".toList, "OS".toList, "DiskTotal".toList, "SystemDisk".toList,
   "DataDisk".toList, "Categories".toList, "Snapshots".toList,
   "LatestSnap".toList, "State".toList, "Zone".toList, "VPC".toList,
   "Created".toList]

/-- The CSV row of the updated script (lines 164–165). -/
def updCsvRow (v : UpdVals) : List Cell :=
  [.cstr v.insName, .cstr v.iid, .cstr v.itype, .cint v.vcpu, .crat v.mem,
   .cstr v.osName, .cint v.dTot, .cint v.dSys, .cint v.dDat,
   .cstr (safeJoin v.cats), .cint v.snapCount, .cstr v.latestSnap,
   .cstr (pyS v.status), .cstr v.zone, .cstr v.vpc, .cstr v.created]

/-- `_badge(state)` of the updated script (lines 36–40). -/
def updBadge (state : Option (List Char)) : List Char :=
  let st := pyS state
  let c :=
    if st = "Running".toList then "#16a34a".toList
    else if st = "Stopped".toList then "#dc2626".toList
    else if st = "Starting".toList then "#2563eb".toList
    else if st = "Stopping".toList then "#ea580c".toList
    else "#64748b".toList
  "<span style='background:".toList ++ c ++
    ";color:white;padding:2px 10px;border-radius:20px;font-size:10px;font-weight:bold'>".toList ++
    htmlEscape st ++ "</span>".toList

/-- `_ecs_link(iid)` of the updated script (lines 42–45). -/
def updLink (region iid : List Char) : List Char :=
  let sid := htmlEscape iid
  "<a href='https://ecs.console.aliyun.com/#/server/".toList ++ region ++
    '/' :: sid ++ "/detail' data-value='".toList ++ sid ++
    "' target='_blank' style='color:#2563eb;text-decoration:none;font-weight:600'>".toList ++
    sid ++ "</a>".toList

/-- The HTML row of the updated script (lines 167–171). -/
def updHtmlRow (region : List Char) (v : UpdVals) : List Cell :=
  [.cstr (htmlEscape v.insName), .cstr (updLink region v.iid),
   .cstr (htmlEscape v.itype), .cint v.vcpu, .crat v.mem,
   .cstr (htmlEscape v.osName), .cint v.dTot, .cint v.dSys, .cint v.dDat,
   .cstr (htmlEscape (safeJoin v.cats)), .cint v.snapCount, .cstr v.latestSnap,
   .cstr (updBadge v.status), .cstr (htmlEscape v.zone),
   .cstr (htmlEscape v.vpc), .cstr (htmlEscape v.created)]

/-! ## General lemmas -/

/-- `ratFloor` agrees with the mathematical floor. -/
theorem ratFloor_eq_floor (q : ℚ) : ratFloor q = ⌊q⌋ := by
  rw [ratFloor, Rat.floor_def, Int.fdiv_eq_ediv _ (Int.natCast_nonneg q.den)]

/-! ## Lemmas about `pyStrip` -/

theorem dropWhile_head_false {p : Char → Bool} {c : Char} {l : List Char}
    (h : (c :: l).dropWhile p = c :: l) : p c = false := by
  by_cases hc : p c
  · exfalso
    rw [List.dropWhile_cons_of_pos hc] at h
    have hlen : (l.dropWhile p).length ≤ l.length :=
      (List.dropWhile_sublist p).length_le
    rw [h] at hlen
    simp at hlen
  · simpa using hc

theorem dropWhile_append_self {p : Char → Bool} {a b : List Char}
    (h : a.dropWhile p = a) (ha : a ≠ []) : (a ++ b).dropWhile p = a ++ b := by
  cases a with
  | nil => exact absurd rfl ha
  | cons c t =>
    have hc : ¬ p c = true := by simp [dropWhile_head_false h]
    show (c :: (t ++ b)).dropWhile p = c :: (t ++ b)
    rw [List.dropWhile_cons_of_neg hc]

theorem dropWhile_idem (p : Char → Bool) (l : List Char) :
    (l.dropWhile p).dropWhile p = l.dropWhile p := by
  induction l with
  | nil => simp
  | cons a l ih =>
    by_cases h : p a
    · rw [List.dropWhile_cons_of_pos h]; exact ih
    · rw [List.dropWhile_cons_of_neg (by simp [h]),
          List.dropWhile_cons_of_neg (by simp [h])]

theorem dropTrail_idem (p : Char → Bool) (l : List Char) :
    dropTrail p (dropTrail p l) = dropTrail p l := by
  unfold dropTrail
  rw [List.reverse_reverse, dropWhile_idem]

/-- `dropTrail` produces a prefix of its input. -/
theorem dropTrail_prefix (p : Char → Bool) (l : List Char) :
    dropTrail p l <+: l := by
  unfold dropTrail
  have h : l.reverse.dropWhile p <:+ l.reverse := List.dropWhile_suffix p
  obtain ⟨s, hs⟩ := h
  refine ⟨s.reverse, ?_⟩
  have := congrArg List.reverse hs
  simpa using this

theorem dropWhile_of_dropTrail {p : Char → Bool} {l : List Char}
    (h : l.dropWhile p = l) : (dropTrail p l).dropWhile p = dropTrail p l := by
  obtain ⟨s, hs⟩ := dropTrail_prefix p l
  cases hd : dropTrail p l with
  | nil => simp
  | cons c t =>
    rw [hd] at hs
    have hc : p c = false := by
      apply dropWhile_head_false (l := t ++ s)
      show (c :: t ++ s).dropWhile p = c :: t ++ s
      rw [hs, h]
    rw [List.dropWhile_cons_of_neg (by simp [hc])]

theorem pyStrip_idem (l : List Char) : pyStrip (pyStrip l) = pyStrip l := by
  unfold pyStrip
  rw [dropWhile_of_dropTrail (dropWhile_idem isSpaceChar l), dropTrail_idem]

theorem dropTrail_of_append {p : Char → Bool} {a x : List Char}
    (h : dropTrail p (a ++ x) = a ++ x) : dropTrail p x = x := by
  have hrev : (x.reverse ++ a.reverse).dropWhile p = x.reverse ++ a.reverse := by
    have h2 := congrArg List.reverse h
    rw [dropTrail, List.reverse_reverse, List.reverse_append] at h2
    exact h2
  have hxd : x.reverse.dropWhile p = x.reverse := by
    cases hxr : x.reverse with
    | nil => simp
    | cons c t =>
      rw [hxr] at hrev
      have hc : ¬ p c = true := by
        simp [dropWhile_head_false (l := t ++ a.reverse) (by simpa using hrev)]
      rw [List.dropWhile_cons_of_neg hc]
  rw [dropTrail, hxd, List.reverse_reverse]

theorem dropTrail_append {p : Char → Bool} {a x : List Char}
    (h : dropTrail p x = x) (hx : x ≠ []) : dropTrail p (a ++ x) = a ++ x := by
  have hxd : x.reverse.dropWhile p = x.reverse := by
    have h2 := congrArg List.reverse h
    rw [dropTrail, List.reverse_reverse] at h2
    exact h2
  rw [dropTrail, List.reverse_append,
      dropWhile_append_self hxd (by simpa using hx)]
  simp

/-- The trailing-strip part of `pyStrip` leaves its output alone. -/
theorem dropTrail_pyStrip (l : List Char) :
    dropTrail isSpaceChar (pyStrip l) = pyStrip l := by
  unfold pyStrip
  rw [dropTrail_idem]

theorem pyStrip_https_append {x : List Char} (hx : dropTrail isSpaceChar x = x) :
    pyStrip ("https://".toList ++ x) = "https://".toList ++ x := by
  unfold pyStrip
  rw [dropWhile_append_self (by decide) (by decide)]
  by_cases hxe : x = []
  · subst hxe; decide
  · exact dropTrail_append hx hxe

/-- C10 — `ensure_https` always yields an `https://`-prefixed string
(rewriting an `http://` prefix, else prepending) and is idempotent. -/
theorem ensure_https_result (e : Option (List Char)) :
    "https://".toList.isPrefixOf (ensureHttps e) = true ∧
    ensureHttps (some (ensureHttps e)) = ensureHttps e := by
  have hts : dropTrail isSpaceChar (pyStrip (e.getD [])) = pyStrip (e.getD []) :=
    dropTrail_pyStrip _
  by_cases h1 : "https://".toList.isPrefixOf (pyStrip (e.getD [])) = true
  · have hre : ensureHttps e = pyStrip (e.getD []) := by
      unfold ensureHttps; rw [if_pos h1]
    constructor
    · rw [hre]; exact h1
    · rw [hre]
      unfold ensureHttps
      simp only [Option.getD_some]
      rw [pyStrip_idem, if_pos h1]
  · by_cases h2 : "http://".toList.isPrefixOf (pyStrip (e.getD [])) = true
    · obtain ⟨s, hs⟩ : "http://".toList <+: pyStrip (e.getD []) :=
        List.isPrefixOf_iff_prefix.mp h2
      have hdrop : (pyStrip (e.getD [])).drop 7 = s := by
        rw [← hs]
        exact List.drop_left "http://".toList s
      have hre : ensureHttps e = "https://".toList ++ s := by
        unfold ensureHttps
        rw [if_neg (by simpa using h1), if_pos h2, hdrop]
      have hsx : dropTrail isSpaceChar s = s :=
        dropTrail_of_append (a := "http://".toList) (by rw [hs]; exact hts)
      constructor
      · rw [hre]
        exact List.isPrefixOf_iff_prefix.mpr (List.prefix_append _ _)
      · rw [hre]
        unfold ensureHttps
        simp only [Option.getD_some]
        rw [pyStrip_https_append hsx,
            if_pos (List.isPrefixOf_iff_prefix.mpr (List.prefix_append _ _))]
    · have hre : ensureHttps e = "https://".toList ++ pyStrip (e.getD []) := by
        unfold ensureHttps
        rw [if_neg (by simpa using h1), if_neg (by simpa using h2)]
      constructor
      · rw [hre]
        exact List.isPrefixOf_iff_prefix.mpr (List.prefix_append _ _)
      · rw [hre]
        unfold ensureHttps
        simp only [Option.getD_some]
        rw [pyStrip_https_append hts,
            if_pos (List.isPrefixOf_iff_prefix.mpr (List.prefix_append _ _))]

/-! ## C7: `format_bytes` -/

theorem formatBytesGo_base {b : ℚ} (hb : b < 1024) (u : List Char)
    (us : List (List Char)) : formatBytesGo b (u :: us) = fmt2 b ++ ' ' :: u := by
  conv_lhs => rw [formatBytesGo]
  rw [if_pos hb]

theorem formatBytesGo_step {b : ℚ} (hb : 1024 ≤ b) (u : List Char)
    (us : List (List Char)) : formatBytesGo b (u :: us) = formatBytesGo (b / 1024) us := by
  conv_lhs => rw [formatBytesGo]
  rw [if_neg (by linarith)]

/-- The general unit-stepping behaviour of `format_bytes`. -/
theorem formatBytes_unit_clause :
    ∀ b : ℚ, 1 ≤ b → b < 1024 →
      formatBytes b = fmt2 b ++ " B".toList ∧
      formatBytes (1024 * b) = fmt2 b ++ " KB".toList ∧
      formatBytes (1024 ^ 2 * b) = fmt2 b ++ " MB".toList ∧
      formatBytes (1024 ^ 3 * b) = fmt2 b ++ " GB".toList ∧
      formatBytes (1024 ^ 4 * b) = fmt2 b ++ " TB".toList ∧
      formatBytes (1024 ^ 5 * b) = fmt2 b ++ " PB".toList := by
  intro b h1 h2
  have hb : (0 : ℚ) < b := by linarith
  have m1 : (1024 : ℚ) ≤ 1024 * b := by nlinarith
  have m2 : (1024 : ℚ) ≤ 1024 ^ 2 * b := by nlinarith
  have m3 : (1024 : ℚ) ≤ 1024 ^ 3 * b := by nlinarith
  have m4 : (1024 : ℚ) ≤ 1024 ^ 4 * b := by nlinarith
  have m5 : (1024 : ℚ) ≤ 1024 ^ 5 * b := by nlinarith
  have d1 : (1024 : ℚ) * b / 1024 = b := by ring
  have d2 : (1024 : ℚ) ^ 2 * b / 1024 = 1024 * b := by ring
  have d3 : (1024 : ℚ) ^ 3 * b / 1024 = 1024 ^ 2 * b := by ring
  have d4 : (1024 : ℚ) ^ 4 * b / 1024 = 1024 ^ 3 * b := by ring
  have d5 : (1024 : ℚ) ^ 5 * b / 1024 = 1024 ^ 4 * b := by ring
  refine ⟨?_, ?_, ?_, ?_, ?_, ?_⟩
  · rw [formatBytes, if_neg (by linarith), formatBytesGo_base h2]; rfl
  · rw [formatBytes, if_neg (by linarith), formatBytesGo_step m1, d1,
        formatBytesGo_base h2]
    rfl
  · rw [formatBytes, if_neg (by nlinarith), formatBytesGo_step m2, d2,
        formatBytesGo_step m1, d1, formatBytesGo_base h2]
    rfl
  · rw [formatBytes, if_neg (by nlinarith), formatBytesGo_step m3, d3,
        formatBytesGo_step m2, d2, formatBytesGo_step m1, d1,
        formatBytesGo_base h2]
    rfl
  · rw [formatBytes, if_neg (by nlinarith), formatBytesGo_step m4, d4,
        formatBytesGo_step m3, d3, formatBytesGo_step m2, d2,
        formatBytesGo_step m1, d1, formatBytesGo_base h2]
    rfl
  · rw [formatBytes, if_neg (by nlinarith), formatBytesGo_step m5, d5,
        formatBytesGo_step m4, d4, formatBytesGo_step m3, d3,
        formatBytesGo_step m2, d2, formatBytesGo_step m1, d1]
    rfl

/-- Evaluate `fmt2` when `q * 100` is a nonnegative integer. -/
theorem fmt2_int (k : ℤ) (q : ℚ) (hq : q * 100 = (k : ℚ)) (h0 : 0 ≤ k) :
    fmt2 q = natStr (k.toNat / 100) ++ '.' :: pad2 (k.toNat % 100) := by
  have hfloor : roundHalfEven (q * 100) = k := by
    rw [roundHalfEven, ratFloor_eq_floor, hq, Int.floor_intCast]
    rw [sub_self]
    rw [if_pos (by norm_num)]
  rw [fmt2, hfloor, if_neg (not_lt.mpr h0)]
  have : k.natAbs = k.toNat := by omega
  rw [this]
  simp

/-- C7 — `format_bytes` hits the three specified values and in general
steps through B/KB/MB/GB/TB/PB with a factor of 1024 per unit and
two-decimal rendering. -/
theorem format_bytes_spec :
    formatBytes 0 = "0 B".toList ∧
    formatBytes 1536 = "1.50 KB".toList ∧
    formatBytes (1024 ^ 3 : ℚ) = "1.00 GB".toList ∧
    ∀ b : ℚ, 1 ≤ b → b < 1024 →
      formatBytes b = fmt2 b ++ " B".toList ∧
      formatBytes (1024 * b) = fmt2 b ++ " KB".toList ∧
      formatBytes (1024 ^ 2 * b) = fmt2 b ++ " MB".toList ∧
      formatBytes (1024 ^ 3 * b) = fmt2 b ++ " GB".toList ∧
      formatBytes (1024 ^ 4 * b) = fmt2 b ++ " TB".toList ∧
      formatBytes (1024 ^ 5 * b) = fmt2 b ++ " PB".toList := by
  refine ⟨?_, ?_, ?_, formatBytes_unit_clause⟩
  · rw [formatBytes, if_pos le_rfl]
  · rw [show (1536 : ℚ) = 1024 * (3 / 2) by norm_num,
        (formatBytes_unit_clause (3 / 2) (by norm_num) (by norm_num)).2.1,
        fmt2_int 150 (3 / 2) (by norm_num) (by norm_num)]
    decide
  · rw [show ((1024 : ℚ) ^ 3) = 1024 ^ 3 * 1 by ring,
        (formatBytes_unit_clause 1 (by norm_num) (by norm_num)).2.2.2.1,
        fmt2_int 100 1 (by norm_num) (by norm_num)]
    decide

/-- C7 witness: the general clause instantiated at `b = 1`. -/
theorem format_bytes_spec_witness :
    formatBytes (1024 * 1) = fmt2 1 ++ " KB".toList :=
  ((format_bytes_spec.2.2.2) 1 (by norm_num) (by norm_num)).2.1

/-! ## C9: the attribute-lookup warning is printed at most once -/

theorem getOsImageBE_cases (printed : Bool) (c : AttrCase) :
    ((getOsImageBE printed c).2.1 = printed ∧ (getOsImageBE printed c).2.2 = 0) ∨
    ((getOsImageBE printed c).2.1 = true ∧
      (getOsImageBE printed c).2.2 = if printed then 0 else 1) := by
  by_cases h1 : (c.osPrimary.getD [] ≠ [] ∧ c.imgPrimary.getD [] ≠ [])
  · left; constructor <;> simp [getOsImageBE, h1]
  · by_cases h2 : c.iid = []
    · left; constructor <;> simp [getOsImageBE, h1, h2]
    · cases hattr : c.attr with
      | ok v => left; constructor <;> simp [getOsImageBE, h1, h2, hattr]
      | error e => right; constructor <;> simp [getOsImageBE, h1, h2, hattr]

theorem ecsAttrFold_true (cs : List AttrCase) :
    (ecsAttrFold true cs).2.2 = 0 ∧ (ecsAttrFold true cs).2.1 = true := by
  induction cs with
  | nil => simp [ecsAttrFold]
  | cons c cs ih =>
    rcases getOsImageBE_cases true c with ⟨hf, hw⟩ | ⟨hf, hw⟩ <;>
      simp [ecsAttrFold, hf, hw, ih.1, ih.2]

theorem ecsAttrFold_length (printed : Bool) (cs : List AttrCase) :
    (ecsAttrFold printed cs).1.length = cs.length := by
  induction cs generalizing printed with
  | nil => simp [ecsAttrFold]
  | cons c cs ih => simp [ecsAttrFold, ih]

/-- C9 — over any run, however many attribute lookups fail, at most one
warning is printed, and every instance still yields an (os, image) result
(processing continues). -/
theorem attr_warning_at_most_once (cs : List AttrCase) :
    (ecsAttrRun cs).2.2 ≤ 1 ∧ (ecsAttrRun cs).1.length = cs.length := by
  refine ⟨?_, ecsAttrFold_length false cs⟩
  show (ecsAttrFold false cs).2.2 ≤ 1
  induction cs with
  | nil => simp [ecsAttrFold]
  | cons c cs ih =>
    rcases getOsImageBE_cases false c with ⟨hf, hw⟩ | ⟨hf, hw⟩
    · simpa [ecsAttrFold, hf, hw] using ih
    · simp [ecsAttrFold, hf, hw, (ecsAttrFold_true cs).1]

/-! ## C6: pagination -/

/-- C6 — on a 125-item listing at page size 50 the loop issues exactly 3
requests and aggregates all 125 items; in general a page whose reported
total is already covered is the last request, a page whose total is not
yet covered triggers exactly one further page request, and the marker
loop stops exactly when the truncation flag is false. -/
theorem pagination_termination :
    (pagedLoop (mockFetch (List.range 125) 50) 50 10 1 = (List.range 125, 3)) ∧
    (∀ (α : Type) (fetch : Nat → List α × Nat) (pageSize fuel page : Nat),
      (fetch page).2 ≤ page * pageSize →
      pagedLoop fetch pageSize (fuel + 1) page = ((fetch page).1, 1)) ∧
    (∀ (α : Type) (fetch : Nat → List α × Nat) (pageSize fuel page : Nat),
      page * pageSize < (fetch page).2 →
      pagedLoop fetch pageSize (fuel + 1) page =
        ((fetch page).1 ++ (pagedLoop fetch pageSize fuel (page + 1)).1,
         (pagedLoop fetch pageSize fuel (page + 1)).2 + 1)) ∧
    (∀ (α : Type) (fetch : Option (List Char) → List α × Option (List Char) × Bool)
      (fuel : Nat) (marker : Option (List Char)),
      (fetch marker).2.2 = false →
      markerLoop fetch (fuel + 1) marker = ((fetch marker).1, 1)) := by
  refine ⟨by decide, ?_, ?_, ?_⟩
  · intro α fetch pageSize fuel page h
    rcases hfp : fetch page with ⟨i, t⟩
    rw [hfp] at h
    simp only at h
    simp [pagedLoop, hfp, h]
  · intro α fetch pageSize fuel page h
    rcases hfp : fetch page with ⟨i, t⟩
    rw [hfp] at h
    simp only at h
    simp [pagedLoop, hfp, Nat.not_le.mpr h]
  · intro α fetch fuel marker h
    rcases hfp : fetch marker with ⟨i, m2, tr⟩
    rw [hfp] at h
    simp only at h
    simp [markerLoop, hfp, h]

/-- C6 witness: the stop clause applied to page 3 of the 125-item mock. -/
theorem pagination_termination_witness :
    pagedLoop (mockFetch (List.range 125) 50) 50 5 3 =
      ((mockFetch (List.range 125) 50 3).1, 1) :=
  pagination_termination.2.1 ℕ (mockFetch (List.range 125) 50) 50 4 3 (by decide)

/-! ## C8: rendering of blank/absent fields -/

/-- C8 counterexample — the RAM report's HTML cell for an absent (`None`)
field is the literal text `"None"`, not the empty string. -/
theorem ram_html_renders_none_literal :
    ramHtmlCell .vnone = "None".toList ∧ "None".toList ≠ ([] : List Char) := by
  constructor
  · rfl
  · decide

/-- C8 (amended) — the update-script normalizer `_s` and the CSV writer
render an absent value as the empty string, but the RAM report's HTML
renders it as the literal `"None"`, and `"None"` is also the deliberate
access-key-status placeholder for users with no principal name. -/
theorem blank_field_rendering_amended :
    pyS none = [] ∧
    csvField .vnone = [] ∧
    ramHtmlCell .vnone = "None".toList ∧
    (∀ s, ramHtmlCell (.vstr s) = htmlEscape s) ∧
    (∀ st ll aks, akTriple ⟨st, none, ll⟩ aks =
      .ok ("None".toList, "N/A".toList, "Never".toList)) := by
  refine ⟨rfl, rfl, rfl, fun s => rfl, fun st ll aks => ?_⟩
  simp [akTriple, truthyOpt]

/-! ## C1: enrichment-failure handling -/

/-- C1 counterexample — a failing `get_bucket_info` (a secondary
per-resource lookup) makes the per-bucket `except: continue` drop the
bucket's record entirely instead of emitting it with placeholders. -/
theorem oss_bucket_info_failure_drops_record :
    processBucket false
      { name := "b".toList, location := "oss-me-central-1".toList,
        extranetEndpoint := none, info := .error (), stat := .ok ⟨10, 2⟩,
        versioning := .ok none, accel := .ok false, logging := .error (),
        probe := .error () } = none := rfl

theorem ossMain_cons (skip : Bool) (b : OssBucketEnv) (bs : List OssBucketEnv) :
    (ossMain skip (b :: bs)).1 =
      (processBucket skip b).toList ++ (ossMain skip bs).1 := by
  rcases hb : processBucket skip b with _ | row <;> simp [ossMain, hb]

/-- C1 (amended) — in the OSS script failures of the versioning,
acceleration, logging and probe lookups are caught and the record is
emitted with placeholders, but a `get_bucket_info`/`get_bucket_stat`
failure drops that bucket's record (other buckets unaffected); in the RAM
script the policy lookup is caught with a placeholder, but a group or
access-key listing failure aborts the whole run; in the ECS scripts a
disk-listing failure yields placeholder disk fields. -/
theorem enrichment_failure_handling_amended :
    (∀ nm loc ep info stat,
      processBucket false
        { name := nm, location := loc, extranetEndpoint := ep,
          info := .ok info, stat := .ok stat, versioning := .error (),
          accel := .error (), logging := .error (), probe := .error () } =
      some { name := nm, region := removeAllSub "oss-".toList loc,
             storageClass := info.storageClass.getD "Standard".toList,
             storageBytes := stat.storageBytes,
             capacity := formatBytes (stat.storageBytes : ℚ),
             objects := stat.objectCount,
             acl := info.aclGrant.getD "private".toList,
             redundancy := info.redundancy.getD "LRS".toList,
             versioning := "Off".toList, accel := "Disabled".toList,
             createdAt := safeDate info.creationDate,
             clientTls := "Yes (HTTPS)".toList,
             accessLogging := "No".toList, logTarget := "N/A".toList,
             probe := "Not Reachable".toList }) ∧
    (∀ nm loc ep stat v a lg pr,
      processBucket false
        { name := nm, location := loc, extranetEndpoint := ep,
          info := .error (), stat := stat, versioning := v, accel := a,
          logging := lg, probe := pr } = none) ∧
    (∀ skip pre post b,
      (ossMain skip (pre ++ b :: post)).1 =
        (ossMain skip pre).1 ++ (processBucket skip b).toList ++
          (ossMain skip post).1) ∧
    (∀ profile un dn cd st ll gs,
      processUser profile
        { userName := un, displayName := dn, createDate := cd,
          imsU := ⟨st, none, ll⟩, policies := .error (), groups := .ok gs,
          accessKeys := .ok [] } =
      .ok { profile := profile, userName := un, displayName := dn,
            status := st.getD "Active".toList,
            creation := parseTimestamp cd,
            perms := "None (Group Only)".toList,
            groups := if (joinWith ", ".toList gs).isEmpty then "None".toList
                      else joinWith ", ".toList gs,
            mfa := if pyTruthy ll then "Yes".toList else "No".toList,
            akStatus := "None".toList, akGen := "N/A".toList,
            akLast := "Never".toList, lastLogin := parseTimestamp ll }) ∧
    (∀ profile un dn cd imsu pol ak pre post,
      runRamUsers profile
        (pre ++ { userName := un, displayName := dn, createDate := cd,
                  imsU := imsu, policies := pol, groups := .error (),
                  accessKeys := ak } :: post) = .error ()) ∧
    ecsDiskBlock (.error ()) = (0, 0, 0, [], []) := by
  refine ⟨?_, ?_, ?_, ?_, ?_, rfl⟩
  · intro nm loc ep info stat
    rfl
  · intro nm loc ep stat v a lg pr
    cases stat <;> rfl
  · intro skip pre post b
    induction pre with
    | nil =>
      rw [List.nil_append, ossMain_cons]
      simp [ossMain]
    | cons p ps ih => simp [ossMain_cons, ih]
  · intro profile un dn cd st ll gs
    simp [processUser, akTriple, truthyOpt]
    rfl
  · intro profile un dn cd imsu pol ak pre post
    induction pre with
    | nil =>
      have hu : processUser profile
          { userName := un, displayName := dn, createDate := cd,
            imsU := imsu, policies := pol, groups := .error (),
            accessKeys := ak } = .error () := rfl
      rw [List.nil_append, runRamUsers, hu]
      rfl
    | cons p ps ih =>
      rw [List.cons_append, runRamUsers]
      cases hp : processUser profile p with
      | error e => rfl
      | ok row => rw [ih]; rfl

/-! ## C2: report summaries are the sums over the emitted records -/

theorem roundHalfEven_intCast (k : ℤ) : roundHalfEven (k : ℚ) = k := by
  rw [roundHalfEven, ratFloor_eq_floor, Int.floor_intCast, sub_self]
  rw [if_pos (by norm_num)]

/-- `round(q, 2)` is the identity on values that are whole hundredths. -/
theorem round2_eq_self {q : ℚ} {k : ℤ} (hq : q * 100 = k) : round2 q = q := by
  rw [round2, hq, roundHalfEven_intCast, eq_comm, eq_div_iff (by norm_num), hq]

/-- `round(q, 2)` always yields a whole number of hundredths. -/
theorem round2_mul100 (q : ℚ) : round2 q * 100 = (roundHalfEven (q * 100) : ℚ) := by
  rw [round2]
  field_simp

theorem updPerInstance_mem (e : UpdInsEnv) :
    (updPerInstance e).mem = round2 (e.memoryMb.getD 0 / 1024) := by
  unfold updPerInstance
  cases e.diskRes with
  | error u => rfl
  | ok disks =>
    cases e.snapRes with
    | error u => rfl
    | ok snaps => rfl

theorem updMain_rows (envs : List UpdInsEnv) :
    (updMain envs).1 = envs.map updPerInstance := by
  induction envs with
  | nil => rfl
  | cons e es ih => simp [updMain, ih]

theorem updMain_sums (envs : List UpdInsEnv) :
    (updMain envs).2.1 = ((updMain envs).1.map (fun v => v.vcpu)).sum ∧
    (updMain envs).2.2.1 = ((updMain envs).1.map (fun v => v.mem)).sum ∧
    (updMain envs).2.2.2 = ((updMain envs).1.map (fun v => v.dTot)).sum := by
  induction envs with
  | nil => refine ⟨rfl, rfl, rfl⟩
  | cons e es ih => simp [updMain, ih.1, ih.2.1, ih.2.2]

theorem updMain_memsum_int (envs : List UpdInsEnv) :
    ∃ K : ℤ, ((updMain envs).1.map (fun v => v.mem)).sum * 100 = (K : ℚ) := by
  induction envs with
  | nil => exact ⟨0, by simp [updMain]⟩
  | cons e es ih =>
    obtain ⟨K, hK⟩ := ih
    refine ⟨roundHalfEven (e.memoryMb.getD 0 / 1024 * 100) + K, ?_⟩
    simp only [updMain, List.map_cons, List.sum_cons]
    rw [add_mul, hK, updPerInstance_mem, round2_mul100]
    push_cast
    ring

/-- C2 — each aggregate of the report summaries (OSS total bytes and
object count; updated-ECS instance count, total vCPU, total memory and
total disk) equals the sum of the corresponding field over exactly the
records emitted in the run, placeholders included. -/
theorem report_summary_totals :
    (∀ skip buckets,
      (ossMain skip buckets).2.1 =
        ((ossMain skip buckets).1.map (fun r => r.storageBytes)).sum ∧
      (ossMain skip buckets).2.2 =
        ((ossMain skip buckets).1.map (fun r => r.objects)).sum) ∧
    (∀ envs,
      (updSummary envs).1 = (updMain envs).1.length ∧
      (updSummary envs).2.1 = ((updMain envs).1.map (fun v => v.vcpu)).sum ∧
      (updSummary envs).2.2.1 = ((updMain envs).1.map (fun v => v.mem)).sum ∧
      (updSummary envs).2.2.2 = ((updMain envs).1.map (fun v => v.dTot)).sum) := by
  constructor
  · intro skip buckets
    induction buckets with
    | nil => exact ⟨rfl, rfl⟩
    | cons b bs ih =>
      rcases hb : processBucket skip b with _ | row <;>
        simp [ossMain, hb, ih.1, ih.2]
  · intro envs
    obtain ⟨K, hK⟩ := updMain_memsum_int envs
    refine ⟨rfl, (updMain_sums envs).1, ?_, (updMain_sums envs).2.2⟩
    show round2 (updMain envs).2.2.1 = _
    rw [(updMain_sums envs).2.1, round2_eq_self hK]

/-! ## C3: CSV and HTML agree on rows and columns -/

/-- C3 — per report type the header list is a single fixed constant used
by both serializers; every CSV row and every HTML row has exactly as many
cells as there are headers, and both outputs carry one row per record
(RAM's CSV has one extra line: the written header row). -/
theorem csv_html_row_column_agreement :
    (ecsHeaders.length = 26 ∧
     (∀ v, (ecsCsvRow v).length = ecsHeaders.length) ∧
     (∀ v, (ecsHtmlRow v).length = ecsHeaders.length) ∧
     (∀ vs : List EcsVals, (vs.map ecsCsvRow).length = (vs.map ecsHtmlRow).length)) ∧
    (ossHeaders.length = 14 ∧
     (∀ r, (ossCsvRow r).length = ossHeaders.length) ∧
     (∀ r, (ossHtmlRow r).length = ossHeaders.length) ∧
     (∀ rows : List OssRow, (rows.map ossCsvRow).length = (rows.map ossHtmlRow).length)) ∧
    (ramHeaders.length = 12 ∧
     (∀ r, (ramRowCells r).length = ramHeaders.length) ∧
     (∀ rows : List RamRow, (ramCsvLines rows).length = rows.length + 1 ∧
       (ramHtmlBodyRows rows).length = rows.length)) ∧
    (updHeaders.length = 16 ∧
     (∀ v, (updCsvRow v).length = updHeaders.length) ∧
     (∀ region v, (updHtmlRow region v).length = updHeaders.length) ∧
     (∀ (region : List Char) (vs : List UpdVals),
       (vs.map updCsvRow).length = (vs.map (updHtmlRow region)).length)) := by
  refine ⟨⟨rfl, fun v => rfl, fun v => rfl, fun vs => by simp⟩,
          ⟨rfl, fun r => rfl, fun r => rfl, fun rows => by simp⟩,
          ⟨rfl, fun r => rfl, fun rows => ⟨by simp [ramCsvLines], by simp [ramHtmlBodyRows]⟩⟩,
          ⟨rfl, fun v => rfl, fun region v => rfl, fun region vs => by simp⟩⟩

/-! ## C5: unparseable timestamps -/

/-- C5 counterexample — `parse_timestamp` passes an unparseable 15-character
string through whole, not truncated to 10 characters. -/
theorem parse_timestamp_no_truncation :
    parseTimestamp (.vstr "aaaaaaaaaaaaaaa".toList) = "aaaaaaaaaaaaaaa".toList ∧
    ("aaaaaaaaaaaaaaa".toList).length = 15 := by
  constructor
  · decide
  · decide

/-- C5 (amended) — no unparseable input raises: `parse_timestamp` returns
the stripped (and Z-rewritten) input unchanged; `safe_date` returns
`str(ts)[:10]` for non-`"T"` strings that fail integer parsing and cuts
any string containing `"T"` at the first `"T"` (untruncated). -/
theorem unparseable_passthrough_amended :
    (∀ s, s ≠ [] → pyIsdigit (pyStrip s) = false →
      parseIsoDT (zFix (pyStrip s)) = none →
      parseTimestamp (.vstr s) = zFix (pyStrip s)) ∧
    (∀ s, s ≠ [] → 'T' ∉ s → strToIntOpt s = none →
      safeDate (.vstr s) = s.take 10) ∧
    (∀ s, s ≠ [] → 'T' ∈ s → safeDate (.vstr s) = s.takeWhile (· ≠ 'T')) := by
  refine ⟨?_, ?_, ?_⟩
  · intro s hne hdig hiso
    rw [parseTimestamp,
        if_neg (by simp [pyTruthy, List.isEmpty_iff, hne])]
    simp only [pyStr]
    rw [if_neg (by simp [hdig]), hiso]
  · intro s hne hT hint
    simp only [safeDate]
    rw [if_neg (by simp [pyTruthy, List.isEmpty_iff, hne]),
        if_neg (by simpa using hT), hint]
  · intro s hne hT
    simp only [safeDate]
    rw [if_neg (by simp [pyTruthy, List.isEmpty_iff, hne]),
        if_pos (by simpa using hT)]

/-- C5 witness: the three clauses at concrete unparseable inputs. -/
theorem unparseable_passthrough_amended_witness :
    parseTimestamp (.vstr "not-a-time".toList) = zFix (pyStrip "not-a-time".toList) ∧
    safeDate (.vstr "hello-world!".toList) = ("hello-world!".toList).take 10 ∧
    safeDate (.vstr "abcTdef".toList) = ("abcTdef".toList).takeWhile (· ≠ 'T') :=
  ⟨unparseable_passthrough_amended.1 _ (by decide) (by decide) (by decide),
   unparseable_passthrough_amended.2.1 _ (by decide) (by decide) (by decide),
   unparseable_passthrough_amended.2.2 _ (by decide) (by decide)⟩

/-! ## C4: digit-string and parsing lemmas -/

theorem digitChar_isDigit {k : Nat} (h : k < 10) : isDigitChar (digitChar k) = true := by
  interval_cases k <;> decide

theorem digitVal_digitChar {k : Nat} (h : k < 10) : digitVal (digitChar k) = k := by
  interval_cases k <;> decide

theorem digit_not_space {c : Char} (h : isDigitChar c = true) : isSpaceChar c = false := by
  by_contra hs
  have hs' : isSpaceChar c = true := by simpa using hs
  rcases (by simpa [isSpaceChar, decide_eq_true_eq] using hs' :
      ((((c = ' ' ∨ c = '\t') ∨ c = '\n') ∨ c = '\x0d') ∨ c = '\x0b') ∨ c = '\x0c') with
    ((((h1 | h1) | h1) | h1) | h1) | h1 <;> (subst h1; exact absurd h (by decide))

theorem natStrGo_all_digits : ∀ fuel n, (natStrGo fuel n).all isDigitChar = true := by
  intro fuel
  induction fuel with
  | zero => intro n; rfl
  | succ fuel ih =>
    intro n
    rw [natStrGo]
    by_cases h : n = 0
    · rw [if_pos h]; rfl
    · rw [if_neg h, List.all_append]
      simp [ih, digitChar_isDigit (Nat.mod_lt n (by norm_num))]

theorem natStr_isdigit (n : Nat) : pyIsdigit (natStr n) = true := by
  rw [natStr]
  by_cases h : n = 0
  · rw [if_pos h]; decide
  · rw [if_neg h]
    obtain ⟨m, rfl⟩ : ∃ m, n = m + 1 := ⟨n - 1, by omega⟩
    rw [pyIsdigit, natStrGo, if_neg h]
    rw [List.all_append, natStrGo_all_digits]
    simp [digitChar_isDigit (Nat.mod_lt (m + 1) (by norm_num))]

theorem parseDecimal_append (xs : List Char) (c : Char) :
    parseDecimal (xs ++ [c]) = 10 * parseDecimal xs + digitVal c := by
  rw [parseDecimal, List.foldl_append]
  rfl

theorem parseDecimal_natStrGo :
    ∀ fuel n, 0 < n → n ≤ fuel → parseDecimal (natStrGo fuel n) = n := by
  intro fuel
  induction fuel with
  | zero => intro n h1 h2; omega
  | succ fuel ih =>
    intro n h1 h2
    rw [natStrGo, if_neg (by omega), parseDecimal_append,
        digitVal_digitChar (Nat.mod_lt n (by norm_num))]
    by_cases h10 : n < 10
    · have hz : n / 10 = 0 := by omega
      have hgo : natStrGo fuel 0 = [] := by cases fuel <;> rfl
      rw [hz, hgo]
      show 10 * 0 + n % 10 = n
      omega
    · rw [ih (n / 10) (by omega) (by omega)]
      omega

theorem parseDecimal_natStr (n : Nat) : parseDecimal (natStr n) = n := by
  rw [natStr]
  by_cases h : n = 0
  · rw [if_pos h, h]; rfl
  · rw [if_neg h]; exact parseDecimal_natStrGo n n (by omega) le_rfl

theorem all_digits_no_space {l : List Char} (h : l.all isDigitChar = true) :
    ∀ c ∈ l, isSpaceChar c = false := by
  intro c hc
  exact digit_not_space (by
    have := List.all_eq_true.mp h c hc
    simpa using this)

theorem dropWhile_of_all_false {p : Char → Bool} :
    ∀ l : List Char, (∀ c ∈ l, p c = false) → l.dropWhile p = l := by
  intro l h
  cases l with
  | nil => rfl
  | cons c t => exact List.dropWhile_cons_of_neg (by simp [h c (by simp)])

theorem pyStrip_of_no_space {l : List Char}
    (h : ∀ c ∈ l, isSpaceChar c = false) : pyStrip l = l := by
  rw [pyStrip, dropWhile_of_all_false l h, dropTrail]
  rw [dropWhile_of_all_false l.reverse (by intro c hc; exact h c (by simpa using hc))]
  simp

theorem pyStrip_natStr (n : Nat) : pyStrip (natStr n) = natStr n :=
  pyStrip_of_no_space (all_digits_no_space (by
    have := natStr_isdigit n
    rw [pyIsdigit, Bool.and_eq_true] at this
    exact this.2))

/-! ## C4: the integer branches of `parse_timestamp` -/

theorem parseTimestamp_int_sec {e : ℤ} (h0 : 0 < e) (h12 : e ≤ 10 ^ 12)
    (hok : astimezoneOkMs (1000 * e)) :
    parseTimestamp (.vint e) = epochToDisplayMs (1000 * e) := by
  have hne : ¬ (pyTruthy (.vint e) = false) := by
    simp [pyTruthy]
    omega
  rw [parseTimestamp, if_neg hne]
  simp only [pyStr]
  have hint : intStr e = natStr e.natAbs := by rw [intStr, if_neg (by omega)]
  rw [hint, pyStrip_natStr, if_pos (natStr_isdigit _),
      parseDecimal_natStr, Int.natAbs_of_nonneg (le_of_lt h0),
      if_neg (show ¬ (10 ^ 12 : ℤ) < e by omega), if_pos hok]

theorem parseTimestamp_int_ms {e : ℤ} (h12 : 10 ^ 12 < e)
    (hok : astimezoneOkMs e) :
    parseTimestamp (.vint e) = epochToDisplayMs e := by
  have h0 : 0 < e := by omega
  have hne : ¬ (pyTruthy (.vint e) = false) := by
    simp [pyTruthy]
    omega
  rw [parseTimestamp, if_neg hne]
  simp only [pyStr]
  have hint : intStr e = natStr e.natAbs := by rw [intStr, if_neg (by omega)]
  rw [hint, pyStrip_natStr, if_pos (natStr_isdigit _),
      parseDecimal_natStr, Int.natAbs_of_nonneg (le_of_lt h0),
      if_pos h12, if_pos hok]

/-! ## C4: parsing the canonical ISO form -/

theorem readDigits2_pad2 {v : Nat} (hv : v < 100) (rest : List Char) :
    readDigits2 (pad2 v ++ rest) = some (v, rest) := by
  have d1 : isDigitChar (digitChar (v / 10 % 10)) = true := digitChar_isDigit (by omega)
  have d2 : isDigitChar (digitChar (v % 10)) = true := digitChar_isDigit (by omega)
  have v1 : digitVal (digitChar (v / 10 % 10)) = v / 10 % 10 := digitVal_digitChar (by omega)
  have v2 : digitVal (digitChar (v % 10)) = v % 10 := digitVal_digitChar (by omega)
  simp only [pad2, List.cons_append, List.nil_append, readDigits2, d1, d2,
    Bool.and_self, if_true, v1, v2, Option.some.injEq, Prod.mk.injEq]
  refine ⟨by omega, trivial⟩

theorem readDigits4_pad4 {v : Nat} (hv : v < 10000) (rest : List Char) :
    readDigits4 (pad4 v ++ rest) = some (v, rest) := by
  have d1 : isDigitChar (digitChar (v / 1000 % 10)) = true := digitChar_isDigit (by omega)
  have d2 : isDigitChar (digitChar (v / 100 % 10)) = true := digitChar_isDigit (by omega)
  have d3 : isDigitChar (digitChar (v / 10 % 10)) = true := digitChar_isDigit (by omega)
  have d4 : isDigitChar (digitChar (v % 10)) = true := digitChar_isDigit (by omega)
  have v1 : digitVal (digitChar (v / 1000 % 10)) = v / 1000 % 10 := digitVal_digitChar (by omega)
  have v2 : digitVal (digitChar (v / 100 % 10)) = v / 100 % 10 := digitVal_digitChar (by omega)
  have v3 : digitVal (digitChar (v / 10 % 10)) = v / 10 % 10 := digitVal_digitChar (by omega)
  have v4 : digitVal (digitChar (v % 10)) = v % 10 := digitVal_digitChar (by omega)
  simp only [pad4, List.cons_append, List.nil_append, readDigits4, d1, d2, d3, d4,
    Bool.and_self, if_true, v1, v2, v3, v4, Option.some.injEq, Prod.mk.injEq]
  refine ⟨by omega, trivial⟩

theorem expectChar_cons (c : Char) (rest : List Char) :
    expectChar c (c :: rest) = some rest := by
  simp [expectChar]

theorem daysInMonth_le (y m : Nat) : daysInMonth y m ≤ 31 := by
  rw [daysInMonth]
  split_ifs <;> omega

theorem parseIsoDT_canonIso {y m d h mi s : Nat} (hy : 1 ≤ y) (hy2 : y < 10000)
    (hm1 : 1 ≤ m) (hm2 : m ≤ 12) (hd1 : 1 ≤ d) (hd2 : d ≤ daysInMonth y m)
    (hh : h ≤ 23) (hmi : mi ≤ 59) (hs : s ≤ 59) :
    parseIsoDT (canonIso y m d h mi s) = some ⟨y, m, d, h, mi, s, some 0⟩ := by
  have hd31 : d ≤ 31 := le_trans hd2 (daysInMonth_le y m)
  rw [canonIso, parseIsoDT]
  simp only [readDigits4_pad4 hy2, Option.bind_eq_bind, Option.some_bind,
    expectChar_cons,
    readDigits2_pad2 (show m < 100 by omega),
    readDigits2_pad2 (show d < 100 by omega)]
  rw [if_pos (show 1 ≤ y ∧ 1 ≤ m ∧ m ≤ 12 ∧ 1 ≤ d ∧ d ≤ daysInMonth y m from
        ⟨hy, hm1, hm2, hd1, hd2⟩)]
  rw [readIsoTail]
  simp only [show ('T' = 'T' || 'T' = ' ') = true by decide, if_true,
    Option.bind_eq_bind, Option.some_bind, expectChar_cons,
    readDigits2_pad2 (show h < 100 by omega),
    readDigits2_pad2 (show mi < 100 by omega),
    readDigits2_pad2 (show s < 100 by omega)]
  rw [if_pos (show h ≤ 23 ∧ mi ≤ 59 ∧ s ≤ 59 from ⟨hh, hmi, hs⟩)]
  simp only [show ('+' = '+' || '+' = '-') = true by decide, if_true,
    show readDigits2 ('0' :: '0' :: ':' :: '0' :: '0' :: []) =
      some (0, ':' :: '0' :: '0' :: []) from by decide,
    Option.bind_eq_bind, Option.some_bind,
    show expectChar ':' (':' :: '0' :: '0' :: []) = some ('0' :: '0' :: []) from by decide,
    show readDigits2 ('0' :: '0' :: ([] : List Char)) = some (0, []) from by decide]
  simp

/-! ## C4: the string branch of `parse_timestamp` on the canonical form -/

theorem dropTrail_of_getLast? {p : Char → Bool} {l : List Char} {c : Char}
    (hl : l.getLast? = some c) (hc : p c = false) : dropTrail p l = l := by
  have hrev : l.reverse.head? = some c := by rw [List.head?_reverse, hl]
  rw [dropTrail]
  cases hr : l.reverse with
  | nil =>
    have hln : l = [] := by simpa using congrArg List.reverse hr
    subst hln
    rfl
  | cons a t =>
    rw [hr] at hrev
    simp only [List.head?_cons, Option.some.injEq] at hrev
    subst hrev
    rw [List.dropWhile_cons_of_neg (by simp [hc]), ← hr, List.reverse_reverse]

theorem canonIso_concat (y m d h mi s : Nat) :
    canonIso y m d h mi s =
      (pad4 y ++ ('-' :: (pad2 m ++ ('-' :: (pad2 d ++ ('T' :: (pad2 h ++
        (':' :: (pad2 mi ++ (':' :: (pad2 s ++
          ('+' :: '0' :: '0' :: ':' :: '0' :: [])))))))))))) ++ ['0'] := by
  simp [canonIso]

theorem getLast?_canonIso (y m d h mi s : Nat) :
    (canonIso y m d h mi s).getLast? = some '0' := by
  rw [canonIso_concat, List.getLast?_concat]

theorem dropWhile_canonIso (y m d h mi s : Nat) :
    (canonIso y m d h mi s).dropWhile isSpaceChar = canonIso y m d h mi s := by
  rw [canonIso, pad4]
  exact List.dropWhile_cons_of_neg (by
    simp [digit_not_space (digitChar_isDigit (show y / 1000 % 10 < 10 by omega))])

theorem pyStrip_canonIso (y m d h mi s : Nat) :
    pyStrip (canonIso y m d h mi s) = canonIso y m d h mi s := by
  rw [pyStrip, dropWhile_canonIso]
  exact dropTrail_of_getLast? (getLast?_canonIso y m d h mi s) (by decide)

theorem pyIsdigit_canonIso (y m d h mi s : Nat) :
    pyIsdigit (canonIso y m d h mi s) = false := by
  rw [pyIsdigit, canonIso]
  simp only [List.all_append, List.all_cons,
    show isDigitChar '-' = false from by decide, Bool.false_and, Bool.and_false]

theorem zFix_canonIso (y m d h mi s : Nat) :
    zFix (canonIso y m d h mi s) = canonIso y m d h mi s := by
  rw [zFix, getLast?_canonIso, if_neg (by decide)]

theorem canonIso_ne_nil (y m d h mi s : Nat) : canonIso y m d h mi s ≠ [] := by
  rw [canonIso, pad4]
  simp

theorem parseTimestamp_canonIso {y m d h mi s : Nat} (hy : 1 ≤ y) (hy2 : y < 10000)
    (hm1 : 1 ≤ m) (hm2 : m ≤ 12) (hd1 : 1 ≤ d) (hd2 : d ≤ daysInMonth y m)
    (hh : h ≤ 23) (hmi : mi ≤ 59) (hs : s ≤ 59)
    (hok : astimezoneOkMs
      (1000 * (daysFromCivil y m d * 86400 + h * 3600 + mi * 60 + s))) :
    parseTimestamp (.vstr (canonIso y m d h mi s)) =
      epochToDisplayMs (1000 * (daysFromCivil y m d * 86400 + h * 3600 + mi * 60 + s)) := by
  have hne : ¬ (pyTruthy (.vstr (canonIso y m d h mi s)) = false) := by
    simp [pyTruthy, List.isEmpty_iff, canonIso_ne_nil y m d h mi s]
  rw [parseTimestamp, if_neg hne]
  simp only [pyStr]
  rw [pyStrip_canonIso, if_neg (by rw [pyIsdigit_canonIso]; simp), zFix_canonIso,
      parseIsoDT_canonIso hy hy2 hm1 hm2 hd1 hd2 hh hmi hs]
  show (if astimezoneOkMs (1000 * isoEpoch ⟨y, m, d, h, mi, s, some 0⟩) then
          epochToDisplayMs (1000 * isoEpoch ⟨y, m, d, h, mi, s, some 0⟩)
        else canonIso y m d h mi s) = _
  have hepoch : isoEpoch ⟨y, m, d, h, mi, s, some 0⟩ =
      daysFromCivil y m d * 86400 + h * 3600 + mi * 60 + s := by
    rw [isoEpoch]
    simp
  rw [hepoch, if_pos hok]

/-- C4 counterexample — below the `10^12` threshold the milliseconds form
of an instant is misread as seconds: epoch second 1 (`1` as seconds,
`1000` as milliseconds) yields two different display strings. -/
theorem parse_timestamp_sec_ms_disagree_below_threshold :
    parseTimestamp (.vint 1) = "01 Jan 1970 03:00:01".toList ∧
    parseTimestamp (.vint 1000) = "01 Jan 1970 03:16:40".toList ∧
    parseTimestamp (.vint 1) ≠ parseTimestamp (.vint 1000) := by
  refine ⟨by decide, by decide, by decide⟩

/-- C4 (amended) — for instants after 2001-09-09 01:46:40 UTC (epoch
seconds above `10^9`, so that the milliseconds form exceeds the `10^12`
threshold) and within the `datetime` library's supported range, the
epoch-seconds integer, the epoch-milliseconds integer and the canonical
UTC ISO-8601 string all normalize to the same display string. -/
theorem parse_timestamp_three_forms_agree (y m d h mi s : Nat) (e : ℤ)
    (hy : 1 ≤ y) (hy2 : y < 10000) (hm1 : 1 ≤ m) (hm2 : m ≤ 12)
    (hd1 : 1 ≤ d) (hd2 : d ≤ daysInMonth y m)
    (hh : h ≤ 23) (hmi : mi ≤ 59) (hs : s ≤ 59)
    (he : e = daysFromCivil y m d * 86400 + h * 3600 + mi * 60 + s)
    (h9 : 10 ^ 9 < e) (hmax : e < 253402290000) :
    parseTimestamp (.vint e) = parseTimestamp (.vint (1000 * e)) ∧
    parseTimestamp (.vstr (canonIso y m d h mi s)) = parseTimestamp (.vint e) := by
  have h0 : 0 < e := by omega
  have h12 : e ≤ 10 ^ 12 := by omega
  have hok : astimezoneOkMs (1000 * e) := by
    unfold astimezoneOkMs
    constructor <;> omega
  constructor
  · rw [parseTimestamp_int_sec h0 h12 hok,
        parseTimestamp_int_ms (show (10 : ℤ) ^ 12 < 1000 * e by omega) hok]
  · rw [parseTimestamp_canonIso hy hy2 hm1 hm2 hd1 hd2 hh hmi hs (he ▸ hok),
        parseTimestamp_int_sec h0 h12 hok, he]

/-- C4 witness: 2024-05-17 12:30:05 UTC, epoch 1715949005. -/
theorem parse_timestamp_three_forms_agree_witness :
    parseTimestamp (.vint 1715949005) = parseTimestamp (.vint (1000 * 1715949005)) ∧
    parseTimestamp (.vstr (canonIso 2024 5 17 12 30 5)) =
      parseTimestamp (.vint 1715949005) :=
  parse_timestamp_three_forms_agree 2024 5 17 12 30 5 1715949005 (by decide) (by decide)
    (by decide) (by decide) (by decide) (by decide) (by decide) (by decide) (by decide)
    (by decide) (by decide) (by decide)

end Inventory
